import Mathlib

/-!
# Verification of the stock_scraper multi-source crawl engine

A shallow embedding, in Lean 4, of the core components of the
`stock_scraper` repository, together with theorems checking the
natural-language specification against the code.

Modelling conventions:

* Python floats are modelled as exact rationals (`ℚ`).
* Wall-clock instants (`datetime.now()`, ISO timestamps) are modelled as
  integer seconds; `timedelta(days = d)` is `d * 86400` seconds.
* Python dictionaries with a fixed field set are modelled as structures
  whose fields are `Option`-valued (`none` = key absent or value `None`).
* Code that catches every exception and substitutes a default is modelled
  by a total function; code whose exceptions escape to an enclosing
  handler is modelled with `Except`.
-/

namespace StockScraper

/-- Wall-clock time, in seconds. -/
abbrev Time := Int

/-- `timedelta(days=7).total_seconds()`, the freshness window used by
`MonitorManager.should_process_stock`. -/
def sevenDays : Int := 7 * 86400

/-! ## ProgressStore: `src/utils/monitor_manager.py` (`MonitorManager`)

The per-stock entry of `progress_data["stocks_status"]`.  A fresh entry is
created as the empty dict `{}` and immediately populated by
`mark_stock_success` / `mark_stock_failed`; the structure defaults below
model the `dict.get(key, default)` reads of absent keys.  An
unparseable `last_attempt` string behaves exactly like an absent one in
`should_process_stock` (the `except: pass`), so both are `none`. -/
structure StockStatus where
  status : String := ""
  score : Option ℚ := none
  attempts : ℕ := 0
  last_attempt : Option Time := none
  err_msg : String := ""
deriving Repr, DecidableEq

/-- The `progress_data` dict of `MonitorManager` (fields `start_time` and
`current_batch`, which no code path reads, are omitted).
`stocks_status` is an association list from stock code to entry. -/
structure ProgressData where
  last_update : Time := 0
  total_stocks : ℕ := 0
  processed_stocks : ℕ := 0
  successful_stocks : ℕ := 0
  failed_stocks : ℕ := 0
  stocks_status : List (String × StockStatus) := []
  batch_size : ℕ := 50
  max_retries : ℕ := 3
deriving Repr, DecidableEq

/-- `MonitorManager._get_default_progress` (at wall-clock `now`). -/
def get_default_progress (now : Time) : ProgressData :=
  { last_update := now }

/-- Entry lookup: `progress_data["stocks_status"].get(stock_code, {})`. -/
def getStatus (pd : ProgressData) (code : String) : StockStatus :=
  (pd.stocks_status.lookup code).getD {}

/-- Store an entry under a key in the association list (Python dict
assignment: replaces an existing binding, otherwise appends). -/
def setStatus : List (String × StockStatus) → String → StockStatus →
    List (String × StockStatus)
  | [], code, st => [(code, st)]
  | (k, v) :: rest, code, st =>
    if k = code then (code, st) :: rest else (k, v) :: setStatus rest code st

/-- The freshness test inside `should_process_stock`: `last_attempt`
present (and parseable) and `datetime.now() - last_dt < timedelta(days=7)`. -/
def isFresh (last_attempt : Option Time) (now : Time) : Bool :=
  match last_attempt with
  | some t => decide (now - t < sevenDays)
  | none => false

/-- `MonitorManager.should_process_stock`.  Source structure: a missing
entry returns `True`; a `success` entry whose `last_attempt` parses and is
less than 7 days old returns `False`; every other case falls through to
the `attempts < max_retries` test. -/
def should_process_stock (pd : ProgressData) (now : Time) (code : String) :
    Bool :=
  match pd.stocks_status.lookup code with
  | none => true
  | some st =>
    if st.status = "success" && isFresh st.last_attempt now then
      false
    else
      decide (st.attempts < pd.max_retries)

/-- `MonitorManager.mark_stock_success` (including the `last_update`
refresh done by the `_save_progress` call it ends with). -/
def mark_stock_success (pd : ProgressData) (now : Time) (code : String)
    (score : ℚ) : ProgressData :=
  let old := getStatus pd code
  let st : StockStatus :=
    { old with
      status := "success"
      score := some score
      attempts := old.attempts + 1
      last_attempt := some now }
  { pd with
    stocks_status := setStatus pd.stocks_status code st
    successful_stocks := pd.successful_stocks + 1
    processed_stocks := pd.processed_stocks + 1
    last_update := now }

/-- `MonitorManager.mark_stock_failed`: increments the entry's attempt
count, and adds to the global `failed_stocks` counter exactly when the new
attempt count reaches `max_retries` (`current_attempts + 1 >= max_retries`). -/
def mark_stock_failed (pd : ProgressData) (now : Time) (code : String)
    (e : String) : ProgressData :=
  let old := getStatus pd code
  let st : StockStatus :=
    { old with
      status := "failed"
      err_msg := e
      attempts := old.attempts + 1
      last_attempt := some now }
  { pd with
    stocks_status := setStatus pd.stocks_status code st
    failed_stocks :=
      pd.failed_stocks + (if pd.max_retries ≤ old.attempts + 1 then 1 else 0)
    processed_stocks := pd.processed_stocks + 1
    last_update := now }

/-- The eligibility rule exactly as the specification words it (used only
to compare spec against code): eligible iff (a) never attempted, (b)
status `failed` with `attempts < max_retries`, or (c) status `success`
with `last_attempt` more than the 7-day window ago. -/
def spec_should_process (pd : ProgressData) (now : Time) (code : String) :
    Bool :=
  match pd.stocks_status.lookup code with
  | none => true
  | some st =>
    (st.status = "failed" && decide (st.attempts < pd.max_retries)) ||
    (st.status = "success" &&
      (match st.last_attempt with
       | some t => decide (sevenDays < now - t)
       | none => false))

/-- A `success` entry that is 8 days old but already has
`max_retries` attempts: reachable by two failures followed by a success. -/
def staleMaxedEntry : StockStatus :=
  { status := "success", score := some 8, attempts := 3,
    last_attempt := some 0 }

/-- Progress state holding only `staleMaxedEntry` for stock 600519. -/
def staleMaxedProgress : ProgressData :=
  { stocks_status := [("600519", staleMaxedEntry)] }

/-! ### Mark-call traces

`run_full_crawl` (src/crawler/multi_source_info_crawler.py) calls
`mark_stock_success` / `mark_stock_failed` only on stocks returned by
`get_stocks_to_process`, i.e. only on stocks for which
`should_process_stock` holds at selection time.  Traces of such calls are
modelled as lists of events, and the guard is the side condition
`should_process_stock` at each event. -/

/-- One progress-mutating call. -/
inductive MarkOp where
  | success (score : ℚ)
  | failed (e : String)
deriving Repr, DecidableEq

/-- A mark call on a stock at a wall-clock instant. -/
structure MarkEvent where
  code : String
  time : Time
  op : MarkOp
deriving Repr, DecidableEq

/-- Apply one mark call to the progress state. -/
def markStep (pd : ProgressData) (e : MarkEvent) : ProgressData :=
  match e.op with
  | .success s => mark_stock_success pd e.time e.code s
  | .failed msg => mark_stock_failed pd e.time e.code msg

/-- Apply a trace of mark calls. -/
def runMarks (pd : ProgressData) : List MarkEvent → ProgressData
  | [] => pd
  | e :: es => runMarks (markStep pd e) es

/-- A trace is guarded when every call is made on a stock that
`should_process_stock` selects at that point (the discipline of
`run_full_crawl`, which only processes stocks chosen by
`get_stocks_to_process`). -/
def guardedRun (pd : ProgressData) : List MarkEvent → Bool
  | [] => true
  | e :: es =>
    should_process_stock pd e.time e.code && guardedRun (markStep pd e) es

/-- The amount `mark_stock_failed` adds to the global `failed_stocks`
counter when executing event `e`, attributed to stock `code`
(`1` exactly when `e` is a failure of `code` whose new attempt count
reaches `max_retries`). -/
def failIncrement (pd : ProgressData) (code : String) (e : MarkEvent) : ℕ :=
  match e.op with
  | .failed _ =>
    if e.code = code ∧ pd.max_retries ≤ (getStatus pd e.code).attempts + 1
    then 1 else 0
  | .success _ => 0

/-- Total `failed_stocks` increments attributed to `code` along a trace. -/
def countFailIncrements (pd : ProgressData) (code : String) :
    List MarkEvent → ℕ
  | [] => 0
  | e :: es => failIncrement pd code e + countFailIncrements (markStep pd e) code es

/-- A failure event on stock 000001. -/
def failEv (t : Time) : MarkEvent :=
  { code := "000001", time := t, op := .failed "crawl failed" }

end StockScraper

namespace StockScraper

theorem lookup_setStatus (l : List (String × StockStatus)) (k c : String)
    (st : StockStatus) :
    (setStatus l k st).lookup c = if c = k then some st else l.lookup c := by
  induction l with
  | nil =>
    by_cases h : c = k
    · simp [setStatus, List.lookup, h]
    · have hb : (c == k) = false := beq_eq_false_iff_ne.mpr h
      simp [setStatus, List.lookup, hb, h]
  | cons p rest ih =>
    obtain ⟨a, b⟩ := p
    by_cases hak : a = k
    · subst hak
      by_cases hca : c = a
      · simp [setStatus, List.lookup, hca]
      · have hb : (c == a) = false := beq_eq_false_iff_ne.mpr hca
        simp [setStatus, List.lookup, hb, hca]
    · have hset : setStatus ((a, b) :: rest) k st = (a, b) :: setStatus rest k st := by
        simp [setStatus, hak]
      rw [hset]
      by_cases hca : c = a
      · subst hca
        have hck : ¬c = k := fun h => hak (h ▸ rfl)
        simp [List.lookup, hck]
      · have hb : (c == a) = false := beq_eq_false_iff_ne.mpr hca
        simp [List.lookup, hb, ih]

theorem max_retries_markStep (pd : ProgressData) (e : MarkEvent) :
    (markStep pd e).max_retries = pd.max_retries := by
  cases h : e.op <;> simp [markStep, h, mark_stock_success, mark_stock_failed]

theorem lookup_markStep (pd : ProgressData) (e : MarkEvent) (c : String) :
    (markStep pd e).stocks_status.lookup c =
      if c = e.code then
        some
          (match e.op with
           | .success s =>
             { getStatus pd e.code with
               status := "success", score := some s,
               attempts := (getStatus pd e.code).attempts + 1,
               last_attempt := some e.time }
           | .failed msg =>
             { getStatus pd e.code with
               status := "failed", err_msg := msg,
               attempts := (getStatus pd e.code).attempts + 1,
               last_attempt := some e.time })
      else pd.stocks_status.lookup c := by
  cases h : e.op <;>
    simp [markStep, h, mark_stock_success, mark_stock_failed, lookup_setStatus]

/-- Once a stock's entry exists with `attempts ≥ max_retries`, any further
mark activity (on it or on other stocks) keeps it in that state. -/
theorem maxed_preserved (pd : ProgressData) (e : MarkEvent) (c : String)
    (st : StockStatus) (hl : pd.stocks_status.lookup c = some st)
    (ha : pd.max_retries ≤ st.attempts) :
    ∃ st', (markStep pd e).stocks_status.lookup c = some st' ∧
      (markStep pd e).max_retries ≤ st'.attempts := by
  rw [max_retries_markStep, lookup_markStep]
  by_cases hc : c = e.code
  · have hg : getStatus pd e.code = st := by
      rw [getStatus, ← hc, hl]; rfl
    rw [if_pos hc]
    cases e.op with
    | success s => exact ⟨_, rfl, by simp [hg]; omega⟩
    | failed m => exact ⟨_, rfl, by simp [hg]; omega⟩
  · rw [if_neg hc]
    exact ⟨st, hl, ha⟩

/-- `should_process_stock` refuses any stock whose entry has
`attempts ≥ max_retries`. -/
theorem should_process_false_of_maxed (pd : ProgressData) (now : Time)
    (c : String) (st : StockStatus) (hl : pd.stocks_status.lookup c = some st)
    (ha : pd.max_retries ≤ st.attempts) :
    should_process_stock pd now c = false := by
  simp only [should_process_stock, hl]
  split
  · rfl
  · simp only [decide_eq_false_iff_not]
    omega

/-- A stock selected by `should_process_stock` that has an entry has
`attempts < max_retries`. -/
theorem should_process_attempts_lt (pd : ProgressData) (now : Time)
    (c : String) (st : StockStatus) (hl : pd.stocks_status.lookup c = some st)
    (hs : should_process_stock pd now c = true) :
    st.attempts < pd.max_retries := by
  simp only [should_process_stock, hl] at hs
  split at hs
  · cases hs
  · exact of_decide_eq_true hs

/-- No guarded trace adds a `failed_stocks` increment for a stock whose
entry already reached `max_retries`. -/
theorem countFailIncrements_zero_of_maxed (es : List MarkEvent) :
    ∀ (pd : ProgressData) (c : String) (st : StockStatus),
      guardedRun pd es = true → pd.stocks_status.lookup c = some st →
      pd.max_retries ≤ st.attempts → countFailIncrements pd c es = 0 := by
  induction es with
  | nil => intro pd c st _ _ _; rfl
  | cons e es ih =>
    intro pd c st hg hl ha
    rw [guardedRun, Bool.and_eq_true] at hg
    obtain ⟨hg1, hg2⟩ := hg
    have hne : e.code ≠ c := by
      intro h
      subst h
      have := should_process_attempts_lt pd e.time e.code st hl hg1
      omega
    obtain ⟨st', hl', ha'⟩ := maxed_preserved pd e c st hl ha
    have hzero : failIncrement pd c e = 0 := by
      unfold failIncrement
      cases e.op
      · rfl
      · rw [if_neg]; intro ⟨h1, _⟩; exact hne h1
    rw [countFailIncrements, hzero, ih (markStep pd e) c st' hg2 hl' ha']

/-- After any further mark trace, a stock whose entry reached
`max_retries` attempts is still refused by `should_process_stock`. -/
theorem maxed_never_selected (es : List MarkEvent) :
    ∀ (pd : ProgressData) (c : String) (st : StockStatus) (now : Time),
      pd.stocks_status.lookup c = some st → pd.max_retries ≤ st.attempts →
      should_process_stock (runMarks pd es) now c = false := by
  induction es with
  | nil =>
    intro pd c st now hl ha
    exact should_process_false_of_maxed pd now c st hl ha
  | cons e es ih =>
    intro pd c st now hl ha
    obtain ⟨st', hl', ha'⟩ := maxed_preserved pd e c st hl ha
    rw [runMarks]
    exact ih (markStep pd e) c st' now hl' ha'

/-- In a guarded trace, at most one event adds a `failed_stocks`
increment for any given stock. -/
theorem countFailIncrements_le_one (es : List MarkEvent) :
    ∀ (pd : ProgressData) (c : String),
      guardedRun pd es = true → countFailIncrements pd c es ≤ 1 := by
  induction es with
  | nil => intro pd c _; exact Nat.zero_le 1
  | cons e es ih =>
    intro pd c hg
    rw [guardedRun, Bool.and_eq_true] at hg
    obtain ⟨hg1, hg2⟩ := hg
    rw [countFailIncrements]
    cases hop : e.op with
    | success s =>
      have h0 : failIncrement pd c e = 0 := by simp [failIncrement, hop]
      rw [h0]
      simpa using ih (markStep pd e) c hg2
    | failed msg =>
      by_cases hcond :
          e.code = c ∧ pd.max_retries ≤ (getStatus pd e.code).attempts + 1
      · obtain ⟨hec, hmax⟩ := hcond
        have h1 : failIncrement pd c e = 1 := by
          simp only [failIncrement, hop]
          rw [if_pos ⟨hec, hmax⟩]
        have hl' : (markStep pd e).stocks_status.lookup c =
            some
              { getStatus pd e.code with
                status := "failed", err_msg := msg,
                attempts := (getStatus pd e.code).attempts + 1,
                last_attempt := some e.time } := by
          rw [lookup_markStep, if_pos hec.symm, hop]
        have hz : countFailIncrements (markStep pd e) c es = 0 :=
          countFailIncrements_zero_of_maxed es (markStep pd e) c _ hg2 hl'
            (by rw [max_retries_markStep]; simpa using hmax)
        rw [h1, hz]
      · have h0 : failIncrement pd c e = 0 := by
          simp only [failIncrement, hop]
          rw [if_neg hcond]
        rw [h0]
        simpa using ih (markStep pd e) c hg2

/-- In a guarded trace, a `failed_stocks` increment can only happen on the
mark call whose new attempt count is exactly `max_retries`. -/
theorem failIncrement_at_bound (pd : ProgressData) (e : MarkEvent)
    (c : String) (hpos : 0 < pd.max_retries)
    (hg : should_process_stock pd e.time e.code = true)
    (hi : failIncrement pd c e = 1) :
    (getStatus (markStep pd e) c).attempts = pd.max_retries := by
  cases hop : e.op with
  | success s => simp [failIncrement, hop] at hi
  | failed msg =>
    simp only [failIncrement, hop] at hi
    by_cases hcond :
        e.code = c ∧ pd.max_retries ≤ (getStatus pd e.code).attempts + 1
    · obtain ⟨hec, hmax⟩ := hcond
      have hpost : getStatus (markStep pd e) c =
          { getStatus pd e.code with
            status := "failed", err_msg := msg,
            attempts := (getStatus pd e.code).attempts + 1,
            last_attempt := some e.time } := by
        rw [getStatus, lookup_markStep, if_pos hec.symm, hop]
        rfl
      rw [hpost]
      cases hl : pd.stocks_status.lookup e.code with
      | none =>
        have hz : getStatus pd e.code = {} := by rw [getStatus, hl]; rfl
        rw [hz] at hmax ⊢
        simp only
        simp only [hz] at hmax
        omega
      | some st =>
        have hgs : getStatus pd e.code = st := by rw [getStatus, hl]; rfl
        have hlt := should_process_attempts_lt pd e.time e.code st hl hg
        rw [hgs] at hmax ⊢
        simp only
        omega
    · rw [if_neg hcond] at hi
      cases hi

/-- Claim C6: (1) once a stock's entry has `attempts ≥ max_retries` —
which holds after `max_retries` failures — no amount of further mark
activity makes `should_process_stock` select it again, so it is never
re-enqueued; (2) along any trace of mark calls guarded by
`should_process_stock` (the discipline of `run_full_crawl`), at most one
call adds a `failed_stocks` increment for a given stock, and an increment
can only occur on the `mark_stock_failed` call whose new attempt count is
exactly `max_retries`; (3) concretely, three guarded failures of a fresh
stock under `max_retries = 3` are all admitted, the first two add nothing
to `failed_stocks`, the third brings it to exactly 1, and the stock is
refused afterwards. -/
theorem retry_bound_and_failed_counter :
    (∀ (pd : ProgressData) (es : List MarkEvent) (c : String)
        (st : StockStatus) (now : Time),
      pd.stocks_status.lookup c = some st → pd.max_retries ≤ st.attempts →
      should_process_stock (runMarks pd es) now c = false) ∧
    (∀ (pd : ProgressData) (es : List MarkEvent) (c : String),
      guardedRun pd es = true → countFailIncrements pd c es ≤ 1) ∧
    (∀ (pd : ProgressData) (e : MarkEvent) (c : String),
      0 < pd.max_retries → should_process_stock pd e.time e.code = true →
      failIncrement pd c e = 1 →
      (getStatus (markStep pd e) c).attempts = pd.max_retries) ∧
    (guardedRun {} [failEv 0, failEv 1, failEv 2] = true ∧
     countFailIncrements {} "000001" [failEv 0, failEv 1] = 0 ∧
     countFailIncrements {} "000001" [failEv 0, failEv 1, failEv 2] = 1 ∧
     (runMarks {} [failEv 0, failEv 1, failEv 2]).failed_stocks = 1 ∧
     should_process_stock (runMarks {} [failEv 0, failEv 1, failEv 2])
       100 "000001" = false) :=
  ⟨fun pd es c st now hl ha => maxed_never_selected es pd c st now hl ha,
   fun pd es c hg => countFailIncrements_le_one es pd c hg,
   fun pd e c hpos hg hi => failIncrement_at_bound pd e c hpos hg hi,
   by decide, by decide, by decide, by decide, by decide⟩

/-- Witness for the retry-bound claim: its universally quantified parts
applied at concrete states. -/
theorem retry_bound_and_failed_counter_witness :
    should_process_stock
      (runMarks
        { stocks_status := [("000001", { status := "failed", attempts := 3 })] }
        [failEv 9]) 50 "000001" = false ∧
    countFailIncrements {} "000001" [failEv 5] ≤ 1 ∧
    (getStatus
      (markStep
        { stocks_status := [("000001", { status := "failed", attempts := 2 })] }
        (failEv 7)) "000001").attempts = 3 :=
  ⟨retry_bound_and_failed_counter.1
      { stocks_status := [("000001", { status := "failed", attempts := 3 })] }
      [failEv 9] "000001" { status := "failed", attempts := 3 } 50
      (by decide) (by decide),
   retry_bound_and_failed_counter.2.1 {} [failEv 5] "000001" (by decide),
   retry_bound_and_failed_counter.2.2.1
      { stocks_status := [("000001", { status := "failed", attempts := 2 })] }
      (failEv 7) "000001" (by decide) (by decide) (by decide)⟩

end StockScraper

namespace StockScraper

/-! ### Durability of the progress file

`MonitorManager._save_progress` serializes `progress_data` with
`open(self.progress_file, "w")` followed by `json.dump`: opening with
mode `"w"` truncates the file first, and the dump then streams the JSON
text into it.  `MonitorManager._load_progress` returns
`_get_default_progress()` when the file is missing or any exception
(e.g. a JSON parse error on a torn file) occurs while reading it. -/

/-- Observable content of the progress file. -/
inductive FileContent where
  | absent
  | torn
  | valid (pd : ProgressData)
deriving Repr, DecidableEq

/-- The sequence of file contents observable during one
`_save_progress(pd)` call at wall-clock `now`, one entry per primitive
file operation: after the truncating `open(..., "w")` the file is empty
(not valid JSON, i.e. torn), and after `json.dump` completes it holds the
new state (with its refreshed `last_update`).  A crash between the two
steps leaves the torn state on disk. -/
def save_progress_file_states (pd : ProgressData) (now : Time) :
    List FileContent :=
  [.torn, .valid { pd with last_update := now }]

/-- `MonitorManager._load_progress`. -/
def load_progress (fc : FileContent) (now : Time) : ProgressData :=
  match fc with
  | .absent => get_default_progress now
  | .torn => get_default_progress now
  | .valid pd => pd

/-- The atomic-on-write contract in the specification's words: during a
save, the file only ever holds the prior durable content or the complete
new content. -/
def atomic_on_write : Prop :=
  ∀ (prior : FileContent) (pd : ProgressData) (now : Time),
    ∀ fc ∈ save_progress_file_states pd now,
      fc = prior ∨ fc = .valid { pd with last_update := now }

/-- A prior durable progress state with visible history. -/
def priorProgress : ProgressData :=
  { processed_stocks := 5, successful_stocks := 4, failed_stocks := 1,
    stocks_status := [("000001", { status := "success", score := some 9,
                                   attempts := 1, last_attempt := some 0 })] }

/-- Claim C4, counterexample: `_save_progress` is not atomic-on-write —
mid-save the file is torn (neither the prior durable state nor the new
one), and loading the torn file yields the fresh default progress state,
not the prior durable state. -/
theorem save_progress_not_atomic :
    ¬ atomic_on_write ∧
    save_progress_file_states priorProgress 1 =
      [.torn, .valid { priorProgress with last_update := 1 }] ∧
    load_progress .torn 1 ≠ priorProgress ∧
    load_progress .torn 1 = get_default_progress 1 := by
  refine ⟨?_, rfl, by decide, rfl⟩
  intro h
  have := h (.valid priorProgress) priorProgress 1 .torn (by simp [save_progress_file_states])
  rcases this with h1 | h1 <;> cases h1

/-- Claim C4 (amended): `_save_progress` rewrites the progress file in
place — a truncating open followed by the JSON dump, with no temporary
file or rename — so a crash between the two steps leaves a torn file on
disk; `_load_progress` does detect a torn or missing file (the exception
is caught) but falls back to the fresh default progress state, in which
every entity is pending again, rather than to the prior durable state. -/
theorem save_progress_in_place_load_defaults :
    (∀ (pd : ProgressData) (now : Time),
      save_progress_file_states pd now =
        [.torn, .valid { pd with last_update := now }]) ∧
    (∀ now : Time, load_progress .torn now = get_default_progress now) ∧
    (∀ now : Time, load_progress .absent now = get_default_progress now) ∧
    (∀ (pd : ProgressData) (now : Time), load_progress (.valid pd) now = pd) :=
  ⟨fun _ _ => rfl, fun _ => rfl, fun _ => rfl, fun _ _ => rfl⟩

end StockScraper

namespace StockScraper

/-! ## Crawler workers

`src/crawler/multi_source_history_crawler.py` and
`src/crawler/multi_source_crawler.py` (`BaseWorker` in each).  Python
computations that may raise an exception reaching the worker loop's
handler are modelled with `Except Unit`. -/

/-- Outcome of a Python computation: `.error ()` is a raised exception. -/
abbrev PyResult (α : Type) := Except Unit α

instance exceptDecidableEq {ε α : Type} [DecidableEq ε] [DecidableEq α] :
    DecidableEq (Except ε α) := fun x y =>
  match x, y with
  | .error a, .error b =>
    match decEq a b with
    | isTrue h => isTrue (by rw [h])
    | isFalse h => isFalse (by intro hh; injection hh; contradiction)
  | .error _, .ok _ => isFalse (by intro hh; cases hh)
  | .ok _, .error _ => isFalse (by intro hh; cases hh)
  | .ok a, .ok b =>
    match decEq a b with
    | isTrue h => isTrue (by rw [h])
    | isFalse h => isFalse (by intro hh; injection hh; contradiction)

/-- A scalar sitting in a field of a fetched record: a number, or a
string (as delivered by some page scrapers). -/
inductive JVal where
  | num (q : ℚ)
  | str (s : String)
deriving Repr, DecidableEq

/-- A fetched price record (the `Optional[Dict]` a `crawl_stock`
implementation returns); `none` in a field means the key is absent or
holds `None`.  Payload columns beyond OHLCV are not read by the worker
logic and are omitted. -/
structure MarketData where
  code : String
  date : String
  «open» : Option JVal := none
  high : Option JVal := none
  low : Option JVal := none
  close : Option JVal := none
  volume : Option JVal := none
deriving Repr, DecidableEq

/-- One pass of the history validator's loop:
`value = data.get(field); if value is None or value <= 0: return False`.
A missing field fails the check (no exception, short-circuit `or`); a
string raises `TypeError` on `value <= 0`; a number passes iff positive. -/
def fieldPositive : Option JVal → PyResult Bool
  | none => .ok false
  | some (.str _) => .error ()
  | some (.num q) => .ok (decide (0 < q))

/-- The `for field in required_fields` loop of
`BaseWorker.validate_data` (history crawler). -/
def checkFields : List (Option JVal) → PyResult Bool
  | [] => .ok true
  | v :: rest =>
    (fieldPositive v).bind fun b => if b then checkFields rest else .ok false

/-- `BaseWorker.validate_data` of `multi_source_history_crawler.py`:
requires `open`, `high`, `low`, `close` to be present and positive.  No
cross-field ordering (`high ≥ max(...)`, `low ≤ min(...)`) is checked. -/
def validate_data_history (data : Option MarketData) : PyResult Bool :=
  match data with
  | none => .ok false
  | some d => checkFields [d.«open», d.high, d.low, d.close]

/-- `BaseWorker.validate_data` of `multi_source_crawler.py`: only the
`close` field is examined — `if not data.get('close')` (falsy: absent,
`None`, `0`, or the empty string), then `data.get('close') <= 0`
(raises `TypeError` on a non-empty string). -/
def validate_data_realtime (data : Option MarketData) : PyResult Bool :=
  match data with
  | none => .ok false
  | some d =>
    match d.close with
    | none => .ok false
    | some (.num q) => if q = 0 then .ok false else .ok (decide (0 < q))
    | some (.str s) => if s = "" then .ok false else .error ()

/-! ### merged_stocks persistence (`src/utils/stock_database.py`) -/

/-- A row of the `merged_stocks` table (payload columns the claims never
read are omitted). -/
structure MergedRow where
  code : String
  date : String
  openPrice : Option JVal := none
  high : Option JVal := none
  low : Option JVal := none
  close : Option JVal := none
  volume : Option JVal := none
deriving Repr, DecidableEq

/-- The row `StockDatabase.insert_stock_data` builds from a record dict. -/
def rowOf (d : MarketData) : MergedRow :=
  { code := d.code, date := d.date, openPrice := d.«open», high := d.high,
    low := d.low, close := d.close, volume := d.volume }

/-- `StockDatabase.exists_stock_data`:
`SELECT COUNT(*) ... WHERE code = ? AND date = ?` compared with 0. -/
def exists_stock_data (db : List MergedRow) (code date : String) : Bool :=
  db.any fun r => r.code = code && r.date = date

/-- Number of `merged_stocks` rows under a given `(code, date)` key. -/
def countKey (db : List MergedRow) (code date : String) : ℕ :=
  db.countP fun r => r.code = code && r.date = date

/-- `StockDatabase.insert_stock_data`: a plain `INSERT` (no conflict
clause), returning `True` on success. -/
def insert_stock_data (db : List MergedRow) (d : MarketData) :
    List MergedRow × Bool :=
  (db ++ [rowOf d], true)

/-- `BaseWorker.save_to_database` (history crawler): skip (returning
`True`) when the `(code, date)` key already exists, otherwise insert. -/
def save_to_database (db : List MergedRow) (d : MarketData) :
    List MergedRow × Bool :=
  if exists_stock_data db d.code d.date then (db, true)
  else insert_stock_data db d

/-! ### Verification-mode comparison (`multi_source_crawler.py`) -/

/-- The dict `BaseWorker.get_db_data` builds from a `merged_stocks` row. -/
structure PriceDict where
  openPrice : Option JVal := none
  high : Option JVal := none
  low : Option JVal := none
  close : Option JVal := none
  volume : Option JVal := none
deriving Repr, DecidableEq

/-- `StockDatabase.get_stock_data` (`... WHERE code = ? AND date = ?
LIMIT 1`) followed by `BaseWorker.get_db_data`'s projection. -/
def get_db_data (db : List MergedRow) (code date : String) :
    Option PriceDict :=
  (db.find? fun r => r.code = code && r.date = date).map fun r =>
    { openPrice := r.openPrice, high := r.high, low := r.low,
      close := r.close, volume := r.volume }

/-- One pass of `BaseWorker.compare_data`'s field loop: missing on either
side fails the comparison; numeric values are compared with absolute
tolerance 0.01 (`abs(crawl_value - db_value) > 0.01` fails); a string on
either side raises `TypeError` on the subtraction. -/
def toleranceOk : Option JVal → Option JVal → PyResult Bool
  | none, _ => .ok false
  | some _, none => .ok false
  | some (.num a), some (.num b) => .ok (decide (|a - b| ≤ mkRat 1 100))
  | some _, some _ => .error ()

/-- The `for field in ["open", "high", "low", "close"]` loop of
`BaseWorker.compare_data`. -/
def compareFields : List (Option JVal × Option JVal) → PyResult Bool
  | [] => .ok true
  | (cv, dv) :: rest =>
    (toleranceOk cv dv).bind fun b => if b then compareFields rest else .ok false

/-- `BaseWorker.compare_data`: a missing persisted record is an immediate
failure, then open/high/low/close are compared within tolerance 0.01. -/
def compare_data (crawl : MarketData) (dbd : Option PriceDict) :
    PyResult Bool :=
  match dbd with
  | none => .ok false
  | some p =>
    compareFields
      [(crawl.«open», p.openPrice), (crawl.high, p.high),
       (crawl.low, p.low), (crawl.close, p.close)]

/-! ### One worker-loop iteration -/

/-- What one dequeued-item iteration of `BaseWorker.run` did:
how many times `queue.task_done()` ran, whether the item was re-enqueued
(`queue.put`), which stats counter was bumped, and whether an exception
escaped the loop uncaught (ending the worker thread). -/
structure IterResult where
  task_done_calls : ℕ
  requeued : Bool
  add_success : Bool
  add_failure : Bool
  propagated : Bool
deriving Repr, DecidableEq

/-- One iteration of `BaseWorker.run` in
`multi_source_history_crawler.py`, after `queue.get` returned a stock
code: `data = self.crawl_stock(...)` (subclass `crawl_stock` catches its
own exceptions, so `data` is just the `Optional[Dict]` input here), then
validate / save / stats / `task_done`.  The loop's single
`except Exception` handler catches an in-body exception and records a
failure but does NOT call `task_done`, so an exception raised by
`validate_data` (e.g. a `TypeError` from a string-valued field) ends the
iteration with zero `task_done` calls (and the loop continues).
`save_result` is the boolean `save_to_database` returned (it catches
database exceptions and returns `False` for them). -/
def run_iteration_history (data : Option MarketData) (save_result : Bool) :
    IterResult :=
  match validate_data_history data with
  | .error _ =>
    { task_done_calls := 0, requeued := false,
      add_success := false, add_failure := true, propagated := false }
  | .ok true =>
    if save_result then
      { task_done_calls := 1, requeued := false,
        add_success := true, add_failure := false, propagated := false }
    else
      { task_done_calls := 1, requeued := true,
        add_success := false, add_failure := true, propagated := false }
  | .ok false =>
    { task_done_calls := 1, requeued := true,
      add_success := false, add_failure := true, propagated := false }

/-- One iteration of `BaseWorker.run` in `multi_source_crawler.py`, after
`queue.get` returned a stock code.  Its loop body ends in
`except Queue.Empty: ... except Exception: ... queue.task_done() ...`,
but `Queue` here is the class bound by `from queue import Queue`, which
has no `Empty` attribute: when any exception is raised in the body,
evaluating `Queue.Empty` while matching the first clause raises
`AttributeError`, which aborts the handler search — the
`except Exception` clause (the only path that would call `task_done`
after an exception) is never consulted — and propagates out of the
`while` loop, killing the worker thread (after the outer `finally` runs
`stop()`).  So an in-body exception (e.g. `validate_data` or
`compare_data` raising `TypeError` on a string-valued field) performs no
stats update and zero `task_done` calls (`propagated`); every
non-raising path calls `task_done` exactly once, and no path re-enqueues
the item.  `dbd` is what `get_db_data` returned (used in test mode),
`save_result` the boolean from `save_to_database`. -/
def run_iteration_realtime (test_mode : Bool) (data : Option MarketData)
    (dbd : Option PriceDict) (save_result : Bool) : IterResult :=
  match data with
  | none =>
    { task_done_calls := 1, requeued := false,
      add_success := false, add_failure := true, propagated := false }
  | some d =>
    match validate_data_realtime (some d) with
    | .error _ =>
      { task_done_calls := 0, requeued := false,
        add_success := false, add_failure := false, propagated := true }
    | .ok false =>
      { task_done_calls := 1, requeued := false,
        add_success := false, add_failure := true, propagated := false }
    | .ok true =>
      if test_mode then
        match compare_data d dbd with
        | .error _ =>
          { task_done_calls := 0, requeued := false,
            add_success := false, add_failure := false, propagated := true }
        | .ok true =>
          { task_done_calls := 1, requeued := false,
            add_success := true, add_failure := false, propagated := false }
        | .ok false =>
          { task_done_calls := 1, requeued := false,
            add_success := false, add_failure := true, propagated := false }
      else
        if save_result then
          { task_done_calls := 1, requeued := false,
            add_success := true, add_failure := false, propagated := false }
        else
          { task_done_calls := 1, requeued := false,
            add_success := false, add_failure := true, propagated := false }

/-- The specification's example record
`{open: 10, high: 9, low: 8, close: 9.5}`: all fields positive but
`high < open` (ordering violated). -/
def orderingViolationRecord : MarketData :=
  { code := "000001", date := "2026-02-13",
    «open» := some (.num 10), high := some (.num 9),
    low := some (.num 8), close := some (.num (mkRat 19 2)) }

/-- A record whose `open` field is a string: `value <= 0` raises
`TypeError` inside the history validator. -/
def typeErrorRecord : MarketData :=
  { code := "600519", date := "2026-02-13",
    «open» := some (.str "N/A"), high := some (.num 10),
    low := some (.num 9), close := some (.num 10) }

/-- A record whose `close` field is a non-empty string: truthy under
`if not data.get('close')`, then `data.get('close') <= 0` raises
`TypeError` inside the realtime validator. -/
def typeErrorCloseRecord : MarketData :=
  { code := "600519", date := "2026-02-13",
    «open» := some (.num 10), high := some (.num 10),
    low := some (.num 9), close := some (.str "N/A") }

/-- A fully populated, positive, ordered record. -/
def fullRecord : MarketData :=
  { code := "000002", date := "2026-02-13",
    «open» := some (.num 10), high := some (.num 11),
    low := some (.num 9), close := some (.num 10), volume := some (.num 1000) }

end StockScraper

namespace StockScraper

theorem fieldPositive_eq_ok_true (v : Option JVal) :
    fieldPositive v = .ok true ↔ ∃ q, v = some (.num q) ∧ 0 < q := by
  match v with
  | none => simp [fieldPositive]
  | some (.str s) => simp [fieldPositive]
  | some (.num q) => simp [fieldPositive]

theorem checkFields_eq_ok_true (l : List (Option JVal)) :
    checkFields l = .ok true ↔ ∀ v ∈ l, ∃ q, v = some (.num q) ∧ 0 < q := by
  induction l with
  | nil => simp [checkFields]
  | cons v rest ih =>
    match v with
    | none => simp [checkFields, fieldPositive, Except.bind]
    | some (.str s) => simp [checkFields, fieldPositive, Except.bind]
    | some (.num q) =>
      by_cases hq : 0 < q
      · simp [checkFields, fieldPositive, Except.bind, hq, ih]
      · simp [checkFields, fieldPositive, Except.bind, hq]

/-- Claim C2, counterexample: both validators ACCEPT the record
`{open: 10, high: 9, low: 8, close: 9.5}` — no high/low ordering
consistency is checked anywhere, contrary to the claim that it is
rejected. -/
theorem validate_data_accepts_ordering_violation :
    validate_data_history (some orderingViolationRecord) = .ok true ∧
    validate_data_realtime (some orderingViolationRecord) = .ok true := by
  constructor <;> decide

/-- Claim C2 (amended): the history crawler's `validate_data` accepts a
record iff `open`, `high`, `low`, `close` are all present and strictly
positive numbers; the realtime crawler's `validate_data` accepts iff
`close` alone is a present positive number.  Neither validator checks the
ordering `high ≥ max(open, close, low)` / `low ≤ min(open, close, high)`,
so `{open: 10, high: 9, low: 8, close: 9.5}` is accepted by both. -/
theorem validate_data_characterization :
    (∀ d : MarketData, validate_data_history (some d) = .ok true ↔
      ((∃ q, d.«open» = some (.num q) ∧ 0 < q) ∧
       (∃ q, d.high = some (.num q) ∧ 0 < q) ∧
       (∃ q, d.low = some (.num q) ∧ 0 < q) ∧
       (∃ q, d.close = some (.num q) ∧ 0 < q))) ∧
    validate_data_history none = .ok false ∧
    (∀ d : MarketData, validate_data_realtime (some d) = .ok true ↔
      (∃ q, d.close = some (.num q) ∧ 0 < q)) ∧
    validate_data_realtime none = .ok false ∧
    validate_data_history (some orderingViolationRecord) = .ok true ∧
    validate_data_realtime (some orderingViolationRecord) = .ok true := by
  refine ⟨?_, rfl, ?_, rfl, by decide, by decide⟩
  · intro d
    show checkFields [d.«open», d.high, d.low, d.close] = .ok true ↔ _
    rw [checkFields_eq_ok_true]
    simp [List.forall_mem_cons]
  · intro d
    show (match d.close with
          | none => (.ok false : PyResult Bool)
          | some (.num q) => if q = 0 then .ok false else .ok (decide (0 < q))
          | some (.str s) => if s = "" then .ok false else .error ()) =
        .ok true ↔ _
    match hc : d.close with
    | none => simp
    | some (.num q) =>
      by_cases h0 : q = 0
      · simp [h0]
      · by_cases hq : 0 < q
        · simp [h0, hq]
        · simp [h0, hq]
    | some (.str s) =>
      by_cases hs : s = ""
      · simp [hs]
      · simp [hs]

/-- Claim C3: neither worker loop guarantees `task_done` on every exit
path.  History crawler: `queue.task_done()` sits at the end of the `try`
block with no `finally`; an exception after the dequeue (here:
`validate_data` hitting a string-valued `open` field) is caught by the
loop's `except` handler, which records a failure but never calls
`task_done` — the popped item is never marked done and `queue.join()`
hangs.  Realtime crawler: its `except Exception` handler does contain a
`task_done()` call, but the handler is unreachable — the preceding
`except Queue.Empty:` clause raises `AttributeError` during handler
matching (`queue.Queue` has no `Empty` attribute), so an in-body
exception (here: `validate_data` hitting a string-valued `close` field)
escapes with zero `task_done` calls and kills the worker thread.  Every
non-raising iteration of either loop calls `task_done` exactly once
(shown for the realtime loop in full generality, and for the history
loop on its success, save-failure and validation-failure paths). -/
theorem task_done_on_exit_paths :
    (run_iteration_history (some typeErrorRecord) true).task_done_calls = 0 ∧
    (run_iteration_history (some fullRecord) true).task_done_calls = 1 ∧
    (run_iteration_history (some orderingViolationRecord) false).task_done_calls = 1 ∧
    (run_iteration_history none true).task_done_calls = 1 ∧
    (run_iteration_realtime false (some typeErrorCloseRecord) none
      true).task_done_calls = 0 ∧
    (run_iteration_realtime false (some typeErrorCloseRecord) none
      true).propagated = true ∧
    (run_iteration_realtime false (some fullRecord) none true).task_done_calls = 1 ∧
    (run_iteration_realtime true (some fullRecord) none true).task_done_calls = 1 ∧
    (run_iteration_realtime false none none true).task_done_calls = 1 ∧
    (∀ (tm : Bool) (data : Option MarketData) (dbd : Option PriceDict)
        (sv : Bool),
      ((run_iteration_realtime tm data dbd sv).task_done_calls = 1 ∧
       (run_iteration_realtime tm data dbd sv).propagated = false) ∨
      ((run_iteration_realtime tm data dbd sv).task_done_calls = 0 ∧
       (run_iteration_realtime tm data dbd sv).propagated = true)) := by
  refine ⟨by decide, by decide, by decide, by decide, by decide, by decide,
    by decide, by decide, by decide, ?_⟩
  intro tm data dbd sv
  cases data with
  | none => exact Or.inl ⟨rfl, rfl⟩
  | some d =>
    simp only [run_iteration_realtime]
    cases h : validate_data_realtime (some d) with
    | error e => simp [h]
    | ok b =>
      cases b with
      | false => simp [h]
      | true =>
        simp only [h]
        cases tm with
        | false => cases sv <;> simp
        | true =>
          simp only [if_true]
          cases h2 : compare_data d dbd with
          | error e => simp [h2]
          | ok b2 => cases b2 <;> simp [h2]

theorem exists_stock_data_iff_countKey_pos (db : List MergedRow)
    (c t : String) :
    exists_stock_data db c t = true ↔ 0 < countKey db c t := by
  simp [exists_stock_data, countKey, List.any_eq_true, List.countP_pos_iff]

theorem save_skips_existing (db : List MergedRow) (d : MarketData)
    (h : countKey db d.code d.date = 1) :
    save_to_database db d = (db, true) := by
  have hex : exists_stock_data db d.code d.date = true :=
    (exists_stock_data_iff_countKey_pos db d.code d.date).mpr (by omega)
  simp [save_to_database, hex]

theorem save_inserts_fresh (db : List MergedRow) (d : MarketData)
    (h : exists_stock_data db d.code d.date = false) :
    save_to_database db d = (db ++ [rowOf d], true) ∧
    countKey (db ++ [rowOf d]) d.code d.date = countKey db d.code d.date + 1 := by
  constructor
  · simp [save_to_database, h, insert_stock_data]
  · have hp : (decide ((rowOf d).code = d.code) &&
        decide ((rowOf d).date = d.date)) = true := by
      simp [rowOf]
    simp [countKey, List.countP_append, List.countP_singleton, hp]

/-- Claim C5: `save_to_database` is idempotent per `(entity, date)` key —
if the key already has its row, the save changes nothing, performs no
insert, and still reports success (the duplicate is a skipped no-op); if
the key is absent, the record is inserted.  In particular saving the same
record twice starting from a key-free store leaves exactly one row and
the second save reports success without touching the store. -/
theorem save_to_database_idempotent :
    (∀ (db : List MergedRow) (d : MarketData),
      countKey db d.code d.date = 1 → save_to_database db d = (db, true)) ∧
    (∀ (db : List MergedRow) (d : MarketData),
      exists_stock_data db d.code d.date = false →
      save_to_database db d = (db ++ [rowOf d], true) ∧
      countKey (db ++ [rowOf d]) d.code d.date =
        countKey db d.code d.date + 1) ∧
    (∀ (db : List MergedRow) (d : MarketData),
      countKey db d.code d.date = 0 →
      countKey (save_to_database db d).1 d.code d.date = 1 ∧
      save_to_database (save_to_database db d).1 d =
        ((save_to_database db d).1, true)) := by
  refine ⟨save_skips_existing, save_inserts_fresh, ?_⟩
  intro db d h
  have hex : exists_stock_data db d.code d.date = false := by
    cases hcase : exists_stock_data db d.code d.date
    · rfl
    · exfalso
      have := (exists_stock_data_iff_countKey_pos db d.code d.date).mp hcase
      omega
  obtain ⟨hs, hc⟩ := save_inserts_fresh db d hex
  have h1 : countKey (save_to_database db d).1 d.code d.date = 1 := by
    rw [hs]; simpa [h] using hc
  exact ⟨h1, by rw [hs]; exact save_skips_existing _ d (by rw [hs] at h1; exact h1)⟩

/-- A concrete record used to exercise the idempotent-save theorem. -/
def sampleRecord : MarketData :=
  { code := "000001", date := "2026-02-13", «open» := some (.num 10),
    high := some (.num 11), low := some (.num 9), close := some (.num 10) }

/-- Witness for the idempotent-save claim: double-saving
`sampleRecord` into an empty store. -/
theorem save_to_database_idempotent_witness :
    countKey (save_to_database [] sampleRecord).1
      sampleRecord.code sampleRecord.date = 1 ∧
    save_to_database (save_to_database [] sampleRecord).1 sampleRecord =
      ((save_to_database [] sampleRecord).1, true) :=
  save_to_database_idempotent.2.2 [] sampleRecord (by decide)

theorem toleranceOk_eq_ok_true (cv dv : Option JVal) :
    toleranceOk cv dv = .ok true ↔
      ∃ a b, cv = some (.num a) ∧ dv = some (.num b) ∧
        |a - b| ≤ mkRat 1 100 := by
  match cv, dv with
  | none, dv => simp [toleranceOk]
  | some (.num a), none => simp [toleranceOk]
  | some (.str s), none => simp [toleranceOk]
  | some (.num a), some (.num b) => simp [toleranceOk]
  | some (.num a), some (.str s) => simp [toleranceOk]
  | some (.str s), some (.num b) => simp [toleranceOk]
  | some (.str s), some (.str t) => simp [toleranceOk]

theorem compareFields_eq_ok_true (l : List (Option JVal × Option JVal)) :
    compareFields l = .ok true ↔
      ∀ p ∈ l, ∃ a b, p.1 = some (.num a) ∧ p.2 = some (.num b) ∧
        |a - b| ≤ mkRat 1 100 := by
  induction l with
  | nil => simp [compareFields]
  | cons p rest ih =>
    obtain ⟨cv, dv⟩ := p
    rw [compareFields]
    cases h : toleranceOk cv dv with
    | error e =>
      simp only [Except.bind]
      constructor
      · intro hh; cases hh
      · intro hall
        have h2 := (toleranceOk_eq_ok_true cv dv).mpr ?_
        · rw [h] at h2; cases h2
        · simpa using hall (cv, dv) (List.mem_cons_self _ _)
    | ok b =>
      cases b with
      | false =>
        simp only [Except.bind, Bool.false_eq_true, if_false]
        constructor
        · intro hh; cases hh
        · intro hall
          have h2 := (toleranceOk_eq_ok_true cv dv).mpr ?_
          · rw [h] at h2
            exact absurd (Except.ok.inj h2) (by simp)
          · simpa using hall (cv, dv) (List.mem_cons_self _ _)
      | true =>
        simp only [Except.bind, if_true]
        rw [ih]
        have hok := (toleranceOk_eq_ok_true cv dv).mp h
        simp only [List.forall_mem_cons]
        constructor
        · intro hrest
          exact ⟨by simpa using hok, hrest⟩
        · intro ⟨_, hr⟩; exact hr

/-- A freshly fetched record whose `close` differs from the persisted one
by 0.004 (within the 0.01 tolerance). -/
def verifyCrawlNear : MarketData :=
  { code := "000001", date := "2026-02-13", «open» := some (.num 10),
    high := some (.num 10), low := some (.num 10),
    close := some (.num (mkRat 10001 1000)) }

/-- Persisted values for the within-tolerance example
(`close = 10.005`). -/
def verifyDbNear : PriceDict :=
  { openPrice := some (.num 10), high := some (.num 10),
    low := some (.num 10), close := some (.num (mkRat 10005 1000)),
    volume := some (.num 1000) }

/-- A freshly fetched record whose `close` is 10.00 while the persisted
`close` is 10.02 (difference 0.02 > 0.01). -/
def verifyCrawlFar : MarketData :=
  { code := "000001", date := "2026-02-13", «open» := some (.num 10),
    high := some (.num 10), low := some (.num 10),
    close := some (.num 10) }

/-- Persisted values for the out-of-tolerance example
(`close = 10.02`). -/
def verifyDbFar : PriceDict :=
  { openPrice := some (.num 10), high := some (.num 10),
    low := some (.num 10), close := some (.num (mkRat 1002 100)),
    volume := some (.num 1000) }

/-- Claim C7: `compare_data` declares the fetched and persisted records
equal iff, for each of open/high/low/close, both values are present
numbers whose absolute difference is at most 0.01; a missing persisted
record is a verification failure.  Concretely, `close = 10.001` vs
`10.005` compares equal while `10.00` vs `10.02` is a mismatch. -/
theorem compare_data_tolerance :
    (∀ (crawl : MarketData) (p : PriceDict),
      compare_data crawl (some p) = .ok true ↔
        ((∃ a b, crawl.«open» = some (.num a) ∧ p.openPrice = some (.num b) ∧
            |a - b| ≤ mkRat 1 100) ∧
         (∃ a b, crawl.high = some (.num a) ∧ p.high = some (.num b) ∧
            |a - b| ≤ mkRat 1 100) ∧
         (∃ a b, crawl.low = some (.num a) ∧ p.low = some (.num b) ∧
            |a - b| ≤ mkRat 1 100) ∧
         (∃ a b, crawl.close = some (.num a) ∧ p.close = some (.num b) ∧
            |a - b| ≤ mkRat 1 100))) ∧
    (∀ crawl : MarketData, compare_data crawl none = .ok false) ∧
    compare_data verifyCrawlNear (some verifyDbNear) = .ok true ∧
    compare_data verifyCrawlFar (some verifyDbFar) = .ok false := by
  have hchar : ∀ (crawl : MarketData) (p : PriceDict),
      compare_data crawl (some p) = .ok true ↔
        ((∃ a b, crawl.«open» = some (.num a) ∧ p.openPrice = some (.num b) ∧
            |a - b| ≤ mkRat 1 100) ∧
         (∃ a b, crawl.high = some (.num a) ∧ p.high = some (.num b) ∧
            |a - b| ≤ mkRat 1 100) ∧
         (∃ a b, crawl.low = some (.num a) ∧ p.low = some (.num b) ∧
            |a - b| ≤ mkRat 1 100) ∧
         (∃ a b, crawl.close = some (.num a) ∧ p.close = some (.num b) ∧
            |a - b| ≤ mkRat 1 100)) := by
    intro crawl p
    show compareFields _ = .ok true ↔ _
    rw [compareFields_eq_ok_true]
    simp [List.forall_mem_cons]
  refine ⟨hchar, fun _ => rfl, ?_, ?_⟩
  · rw [hchar]
    have h0 : |(10 : ℚ) - 10| ≤ mkRat 1 100 := by
      rw [Rat.mkRat_eq_div]; norm_num
    have hclose : |mkRat 10001 1000 - mkRat 10005 1000| ≤ mkRat 1 100 := by
      rw [Rat.mkRat_eq_div, Rat.mkRat_eq_div, Rat.mkRat_eq_div, abs_le]
      norm_num
    exact ⟨⟨10, 10, rfl, rfl, h0⟩, ⟨10, 10, rfl, rfl, h0⟩,
           ⟨10, 10, rfl, rfl, h0⟩,
           ⟨mkRat 10001 1000, mkRat 10005 1000, rfl, rfl, hclose⟩⟩
  · have h0 : (decide (|(10 : ℚ) - 10| ≤ mkRat 1 100)) = true :=
      decide_eq_true (by rw [Rat.mkRat_eq_div]; norm_num)
    have hfar : (decide (|(10 : ℚ) - mkRat 1002 100| ≤ mkRat 1 100)) = false :=
      decide_eq_false (by rw [Rat.mkRat_eq_div, Rat.mkRat_eq_div, not_le, lt_abs]; norm_num)
    simp [compare_data, verifyCrawlFar, verifyDbFar, compareFields,
          toleranceOk, Except.bind, h0, hfar]

end StockScraper

namespace StockScraper

/-! ## Content fingerprints: `src/utils/deduplication.py`

`safe_md5` is `hashlib.md5(data.encode("utf-8")).hexdigest()` (its
fallback branch only runs if the MD5 algorithm itself raises, which
standard `hashlib` never does).  MD5 per RFC 1321 follows, over byte
lists, with 32-bit words as `ℕ` masked modulo `2^32`. -/

namespace MD5

/-- Truncate to 32 bits. -/
def mask32 (x : ℕ) : ℕ := x % 4294967296

/-- 32-bit left rotation (callers pass masked values and `n ≤ 32`). -/
def rotl (x n : ℕ) : ℕ := (x * 2 ^ n) % 4294967296 + x / 2 ^ (32 - n)

/-- Per-round shift amounts (RFC 1321). -/
def shiftTable : List ℕ :=
  [7, 12, 17, 22, 7, 12, 17, 22, 7, 12, 17, 22, 7, 12, 17, 22,
   5, 9, 14, 20, 5, 9, 14, 20, 5, 9, 14, 20, 5, 9, 14, 20,
   4, 11, 16, 23, 4, 11, 16, 23, 4, 11, 16, 23, 4, 11, 16, 23,
   6, 10, 15, 21, 6, 10, 15, 21, 6, 10, 15, 21, 6, 10, 15, 21]

/-- The constants `⌊|sin(i+1)| · 2³²⌋` (RFC 1321). -/
def sineTable : List ℕ :=
  [0xd76aa478, 0xe8c7b756, 0x242070db, 0xc1bdceee,
   0xf57c0faf, 0x4787c62a, 0xa8304613, 0xfd469501,
   0x698098d8, 0x8b44f7af, 0xffff5bb1, 0x895cd7be,
   0x6b901122, 0xfd987193, 0xa679438e, 0x49b40821,
   0xf61e2562, 0xc040b340, 0x265e5a51, 0xe9b6c7aa,
   0xd62f105d, 0x02441453, 0xd8a1e681, 0xe7d3fbc8,
   0x21e1cde6, 0xc33707d6, 0xf4d50d87, 0x455a14ed,
   0xa9e3e905, 0xfcefa3f8, 0x676f02d9, 0x8d2a4c8a,
   0xfffa3942, 0x8771f681, 0x6d9d6122, 0xfde5380c,
   0xa4beea44, 0x4bdecfa9, 0xf6bb4b60, 0xbebfbc70,
   0x289b7ec6, 0xeaa127fa, 0xd4ef3085, 0x04881d05,
   0xd9d4d039, 0xe6db99e5, 0x1fa27cf8, 0xc4ac5665,
   0xf4292244, 0x432aff97, 0xab9423a7, 0xfc93a039,
   0x655b59c3, 0x8f0ccc92, 0xffeff47d, 0x85845dd1,
   0x6fa87e4f, 0xfe2ce6e0, 0xa3014314, 0x4e0811a1,
   0xf7537e82, 0xbd3af235, 0x2ad7d2bb, 0xeb86d391]

/-- The nonlinear round function (the complement of a masked 32-bit value
`v` is `2³² - 1 - v`). -/
def auxFun (i b c d : ℕ) : ℕ :=
  if i < 16 then (b &&& c) ||| ((4294967295 - b) &&& d)
  else if i < 32 then (d &&& b) ||| ((4294967295 - d) &&& c)
  else if i < 48 then b ^^^ c ^^^ d
  else c ^^^ (b ||| (4294967295 - d))

/-- Message-word index used in round `i`. -/
def msgIndex (i : ℕ) : ℕ :=
  if i < 16 then i
  else if i < 32 then (5 * i + 1) % 16
  else if i < 48 then (3 * i + 5) % 16
  else (7 * i) % 16

/-- One of the 64 rounds over one 16-word block `M`. -/
def round (M : List ℕ) (st : ℕ × ℕ × ℕ × ℕ) (i : ℕ) : ℕ × ℕ × ℕ × ℕ :=
  let a := st.1
  let b := st.2.1
  let c := st.2.2.1
  let d := st.2.2.2
  let f := mask32 (auxFun i b c d + a + sineTable.getD i 0 +
                   M.getD (msgIndex i) 0)
  (d, mask32 (b + rotl f (shiftTable.getD i 0)), b, c)

/-- Process one 64-byte block (given as 16 little-endian words). -/
def processBlock (st : ℕ × ℕ × ℕ × ℕ) (M : List ℕ) : ℕ × ℕ × ℕ × ℕ :=
  let r := (List.range 64).foldl (round M) st
  (mask32 (st.1 + r.1), mask32 (st.2.1 + r.2.1),
   mask32 (st.2.2.1 + r.2.2.1), mask32 (st.2.2.2 + r.2.2.2))

/-- Group bytes into 32-bit little-endian words. -/
def wordsOfBytes : List ℕ → List ℕ
  | b0 :: b1 :: b2 :: b3 :: rest =>
    (b0 + 256 * b1 + 65536 * b2 + 16777216 * b3) :: wordsOfBytes rest
  | _ => []

/-- Split a byte list into 64-byte blocks (`fuel` bounds the recursion
structurally; `chunks64` supplies the list length, which always
suffices as each step consumes at least one element). -/
def chunksAux : ℕ → List ℕ → List (List ℕ)
  | 0, _ => []
  | _ + 1, [] => []
  | fuel + 1, x :: rest =>
    (x :: rest).take 64 :: chunksAux fuel ((x :: rest).drop 64)

/-- Split a (padded) byte list into 64-byte blocks. -/
def chunks64 (l : List ℕ) : List (List ℕ) := chunksAux l.length l

/-- Little-endian byte expansion to a fixed width. -/
def leBytes : ℕ → ℕ → List ℕ
  | 0, _ => []
  | k + 1, v => v % 256 :: leBytes k (v / 256)

/-- RFC 1321 padding: a `0x80` byte, zeros to 56 mod 64, then the
original bit length as 8 little-endian bytes. -/
def padMessage (msg : List ℕ) : List ℕ :=
  msg ++ [128] ++ List.replicate ((119 - msg.length % 64) % 64) 0 ++
    leBytes 8 (8 * msg.length % 18446744073709551616)

/-- The 16-byte MD5 digest of a byte list. -/
def digestBytes (msg : List ℕ) : List ℕ :=
  let st := (chunks64 (padMessage msg)).foldl
    (fun st blk => processBlock st (wordsOfBytes blk))
    (1732584193, 4023233417, 2562383102, 271733878)
  leBytes 4 st.1 ++ leBytes 4 st.2.1 ++ leBytes 4 st.2.2.1 ++
    leBytes 4 st.2.2.2

/-- Lowercase hex digit. -/
def hexDigit (n : ℕ) : Char :=
  Char.ofNat (if n < 10 then 48 + n else 87 + n)

/-- Two-digit lowercase hex of one byte. -/
def byteToHex (b : ℕ) : List Char := [hexDigit (b / 16), hexDigit (b % 16)]

/-- `hexdigest()`-style rendering of a digest. -/
def hexString (bs : List ℕ) : String := ⟨(bs.map byteToHex).flatten⟩

end MD5

/-- UTF-8 encoding of one character (`str.encode("utf-8")`). -/
def utf8Char (c : Char) : List ℕ :=
  let n := c.toNat
  if n < 128 then [n]
  else if n < 2048 then [192 + n / 64, 128 + n % 64]
  else if n < 65536 then [224 + n / 4096, 128 + n / 64 % 64, 128 + n % 64]
  else [240 + n / 262144, 128 + n / 4096 % 64, 128 + n / 64 % 64,
        128 + n % 64]

/-- UTF-8 encoding of a string. -/
def utf8Bytes (s : String) : List ℕ := (s.data.map utf8Char).flatten

/-- `safe_md5`: `hashlib.md5(data.encode("utf-8")).hexdigest()`. -/
def safe_md5 (data : String) : String :=
  MD5.hexString (MD5.digestBytes (utf8Bytes data))

/-- Python `str.strip()` whitespace set (ASCII part). -/
def isPySpace (c : Char) : Bool :=
  c = ' ' || c = '\t' || c = '\n' || c = '\r' || c = '\x0b' || c = '\x0c'

/-- Python `str.strip()`. -/
def pyStrip (s : String) : String :=
  ⟨((s.data.dropWhile isPySpace).reverse.dropWhile isPySpace).reverse⟩

/-- Python slicing `s[:n]` (first `n` characters). -/
def pyTake (n : ℕ) (s : String) : String := ⟨s.data.take n⟩

/-- The `fingerprint_input` string of
`DeduplicationManager.generate_content_fingerprint`:
`f"{title.strip()}|{content[:500].strip()}|{source}"`. -/
def fingerprint_input (title content source : String) : String :=
  pyStrip title ++ "|" ++ pyStrip (pyTake 500 content) ++ "|" ++ source

/-- `DeduplicationManager.generate_content_fingerprint`. -/
def generate_content_fingerprint (title content source : String) : String :=
  safe_md5 (fingerprint_input title content source)

set_option maxRecDepth 100000 in
/-- RFC 1321 test vector: the MD5 of the empty input, validating the
embedding of the hash itself. -/
theorem safe_md5_empty_vector :
    safe_md5 "" = "d41d8cd98f00b204e9800998ecf8427e" := by decide

set_option maxRecDepth 100000 in
/-- RFC 1321 test vector: `md5("abc")`. -/
theorem safe_md5_abc_vector :
    safe_md5 "abc" = "900150983cd24fb0d6963f7d28e17f72" := by decide

end StockScraper

namespace StockScraper

/-- Claim C1, counterexample: the specification's eligibility rule marks a
`success` entry whose `last_attempt` is 8 days old as eligible
unconditionally, but `should_process_stock` additionally requires
`attempts < max_retries`: the (reachable) state "two failures, then a
success, 8 days ago" has `attempts = 3` and is refused by the code. -/
theorem should_process_stock_spec_divergence :
    spec_should_process staleMaxedProgress (8 * 86400) "600519" = true ∧
    should_process_stock staleMaxedProgress (8 * 86400) "600519" = false := by
  constructor <;> rfl

/-- Claim C1 (amended): `should_process_stock` returns true iff the entity
(a) has no progress entry, or (b) its entry is not a fresh success (status
`success` with `last_attempt` under 7 days old) AND its attempt count is
below `max_retries`.  In particular a `success` entry 8 days old is
eligible only when additionally `attempts < max_retries`, and a `success`
entry attempted 1 day ago is never eligible. -/
theorem should_process_stock_characterization :
    (∀ (pd : ProgressData) (now : Time) (code : String),
      should_process_stock pd now code = true ↔
        pd.stocks_status.lookup code = none ∨
        (∃ st, pd.stocks_status.lookup code = some st ∧
          ¬(st.status = "success" ∧ isFresh st.last_attempt now = true) ∧
          st.attempts < pd.max_retries)) ∧
    should_process_stock
      { stocks_status :=
          [("000001", { status := "success", score := some 7, attempts := 1,
                        last_attempt := some 0 })] }
      (8 * 86400) "000001" = true ∧
    should_process_stock
      { stocks_status :=
          [("000001", { status := "success", score := some 7, attempts := 1,
                        last_attempt := some (7 * 86400) })] }
      (8 * 86400) "000001" = false := by
  refine ⟨?_, rfl, rfl⟩
  intro pd now code
  unfold should_process_stock
  cases h : pd.stocks_status.lookup code with
  | none => simp
  | some st =>
    simp only [h, Option.some.injEq]
    split
    case isTrue hcond =>
      rw [Bool.and_eq_true, decide_eq_true_eq] at hcond
      constructor
      · intro hfalse; exact absurd hfalse (by simp)
      · rintro (hc | ⟨st', hst', hnf, _⟩)
        · exact absurd hc (by simp)
        · cases hst'
          exact absurd hcond hnf
    case isFalse hcond =>
      rw [Bool.and_eq_true, decide_eq_true_eq] at hcond
      rw [decide_eq_true_eq]
      constructor
      · intro hlt
        exact Or.inr ⟨st, rfl, hcond, hlt⟩
      · rintro (hc | ⟨st', hst', _, hlt⟩)
        · exact absurd hc (by simp)
        · cases hst'; exact hlt

end StockScraper

namespace StockScraper

theorem fingerprint_input_source_cancel (t c s₁ s₂ : String)
    (heq : fingerprint_input t c s₁ = fingerprint_input t c s₂) : s₁ = s₂ := by
  have h2 := congrArg String.data heq
  simp only [fingerprint_input, String.data_append] at h2
  apply String.ext
  exact List.append_cancel_left h2

set_option maxRecDepth 400000 in
/-- Claim C8: the content fingerprint is a pure (hence deterministic,
equal across repeated calls) function of `(title, content, source)`,
computed as the MD5 of
`strip(title) + "|" + strip(content[:500]) + "|" + source`; the source
name is part of the hashed input, so identical title/content under
different source names yield different fingerprint inputs, and on the
concrete pair `SrcA`/`SrcB` the digests themselves differ (the `SrcA`
digest equals the reference `hashlib.md5` value). -/
theorem fingerprint_deterministic_and_source_scoped :
    (∀ t c s : String,
      generate_content_fingerprint t c s =
        safe_md5 (fingerprint_input t c s) ∧
      generate_content_fingerprint t c s =
        generate_content_fingerprint t c s) ∧
    (∀ t c s₁ s₂ : String, s₁ ≠ s₂ →
      fingerprint_input t c s₁ ≠ fingerprint_input t c s₂) ∧
    generate_content_fingerprint "Title" "Content" "SrcA" =
      "be4dcbdc64946065347f6bfec34fbc1f" ∧
    generate_content_fingerprint "Title" "Content" "SrcA" ≠
      generate_content_fingerprint "Title" "Content" "SrcB" := by
  refine ⟨fun t c s => ⟨rfl, rfl⟩, ?_, by decide, by decide⟩
  intro t c s₁ s₂ hne heq
  exact hne (fingerprint_input_source_cancel t c s₁ s₂ heq)

/-- Witness for the fingerprint claim: the source-scoping part applied at
the concrete `SrcA`/`SrcB` pair. -/
theorem fingerprint_deterministic_and_source_scoped_witness :
    fingerprint_input "Title" "Content" "SrcA" ≠
      fingerprint_input "Title" "Content" "SrcB" :=
  fingerprint_deterministic_and_source_scoped.2.1 "Title" "Content"
    "SrcA" "SrcB" (by decide)

end StockScraper

namespace StockScraper

/-! ## Classifier wrapper: `src/crawler/common/llm_analyzer.py`

`LLMAnalyzer.analyze_content` wraps the remote classifier call in a
`try/except` that substitutes a neutral default on any failure.  The
external world (the HTTP call and the JSON parse of its payload,
including the markdown-fence stripping) is the function's input here:
an exception, an HTTP status with an unparseable body, or a parsed
dict. -/

/-- A Python value in the parsed analysis dict.  JSON arrays only occur
as `key_points` (strings), so `plist` carries strings. -/
inductive PVal where
  | pnum (q : ℚ)
  | pbool (b : Bool)
  | pstr (s : String)
  | plist (xs : List String)
  | pnull
deriving Repr, DecidableEq

/-- Digit run to a number. -/
def digitsToNat (cs : List Char) : ℕ :=
  cs.foldl (fun acc c => 10 * acc + (c.toNat - 48)) 0

/-- All characters are ASCII digits. -/
def allDigits (cs : List Char) : Bool :=
  cs.all fun c => 48 ≤ c.toNat && c.toNat ≤ 57

/-- Python `float(s)` on a string: optional sign, decimal digits with an
optional fractional part (scientific notation, `inf`/`nan` omitted —
they never occur in a sentiment score). `none` = `ValueError`. -/
def pyParseFloat (s : String) : Option ℚ :=
  let cs := ((s.data.dropWhile isPySpace).reverse.dropWhile isPySpace).reverse
  let sgn : Int × List Char :=
    match cs with
    | '-' :: rest => (-1, rest)
    | '+' :: rest => (1, rest)
    | _ => (1, cs)
  let intPart := sgn.2.takeWhile (fun c => c ≠ '.')
  match sgn.2.dropWhile (fun c => c ≠ '.') with
  | [] =>
    if intPart ≠ [] ∧ allDigits intPart then
      some (mkRat (sgn.1 * digitsToNat intPart) 1)
    else none
  | _ :: frac =>
    if (intPart ≠ [] ∨ frac ≠ []) ∧ allDigits intPart ∧ allDigits frac then
      some (mkRat (sgn.1 * (digitsToNat intPart * 10 ^ frac.length +
              digitsToNat frac)) (10 ^ frac.length))
    else none

/-- Python `float(x)`: numbers pass through, booleans convert
(`float(True) = 1.0`), numeric strings parse, anything else raises. -/
def pyFloat : PVal → PyResult ℚ
  | .pnum q => .ok q
  | .pbool b => .ok (if b then 1 else 0)
  | .pstr s =>
    match pyParseFloat s with
    | some q => .ok q
    | none => .error ()
  | .plist _ => .error ()
  | .pnull => .error ()

/-- The analysis dict (`none` = the JSON object lacks the key). -/
structure AnalysisDict where
  is_valid : Option PVal := none
  sentiment_score : Option PVal := none
  summary : Option PVal := none
  key_points : Option PVal := none
  reasoning : Option PVal := none
deriving Repr, DecidableEq

/-- Outcome of `json.loads` on the (fence-stripped) response text. -/
inductive ParseOutcome where
  | fail
  | parsed (d : AnalysisDict)
deriving Repr, DecidableEq

/-- What the classifier call produced: a raised exception, or a response
with an HTTP status code and body. -/
inductive ApiResponse where
  | exn
  | http (status : ℕ) (body : ParseOutcome)
deriving Repr, DecidableEq

/-- `content[:100] + "..." if len(content) > 100 else content`. -/
def default_summary (content : String) : String :=
  if 100 < content.length then pyTake 100 content ++ "..." else content

/-- The default-neutral fallback dict (the `reasoning` strings carry a
dynamic exception/status text in the source; only their static marker is
modelled). -/
def default_result (content reason : String) : AnalysisDict :=
  { is_valid := some (.pbool true), sentiment_score := some (.pnum 5),
    summary := some (.pstr (default_summary content)),
    key_points := some (.plist []), reasoning := some (.pstr reason) }

/-- `LLMAnalyzer.analyze_content`: the whole body sits in one
`try/except Exception`, the inner `json.JSONDecodeError` handler and the
non-200 branch return the neutral default, and a parsed dict with a
`sentiment_score` key gets it clamped via
`max(0.0, min(10.0, float(...)))` (a `float()` failure escapes to the
outer handler and yields the default as well). -/
def analyze_content (content content_type : String) (resp : ApiResponse) :
    AnalysisDict :=
  match resp with
  | .exn => default_result content "API调用异常"
  | .http status body =>
    if status = 200 then
      match body with
      | .fail => default_result content "API响应无法解析为JSON"
      | .parsed d =>
        match d.sentiment_score with
        | none => d
        | some v =>
          match pyFloat v with
          | .ok q =>
            { d with sentiment_score := some (.pnum (max 0 (min 10 q))) }
          | .error _ => default_result content "API调用异常"
    else default_result content "API调用失败"

end StockScraper

namespace StockScraper

/-- Claim C9: `analyze_content` never propagates an error — an API
exception, a non-200 status, an unparseable body, and a `float()`
failure on the score all yield the default-neutral fallback with
`is_valid = True` and `sentiment_score = 5.0` — and on a successful
parse whose `sentiment_score` converts to a float `q`, the returned
score is `max(0, min(10, q))`, which lies in `[0, 10]`.  (A parsed dict
without a `sentiment_score` key is returned unchanged.)  These cases are
exhaustive over the response. -/
theorem analyze_content_fallback_clamp :
    (∀ content ct : String,
      analyze_content content ct .exn =
        default_result content "API调用异常") ∧
    (∀ (content ct : String) (status : ℕ) (body : ParseOutcome),
      status ≠ 200 →
      analyze_content content ct (.http status body) =
        default_result content "API调用失败") ∧
    (∀ content ct : String,
      analyze_content content ct (.http 200 .fail) =
        default_result content "API响应无法解析为JSON") ∧
    (∀ (content ct : String) (d : AnalysisDict) (v : PVal) (q : ℚ),
      d.sentiment_score = some v → pyFloat v = .ok q →
      analyze_content content ct (.http 200 (.parsed d)) =
        { d with sentiment_score := some (.pnum (max 0 (min 10 q))) } ∧
      0 ≤ max 0 (min 10 q) ∧ max 0 (min 10 q) ≤ 10) ∧
    (∀ (content ct : String) (d : AnalysisDict) (v : PVal),
      d.sentiment_score = some v → pyFloat v = .error () →
      analyze_content content ct (.http 200 (.parsed d)) =
        default_result content "API调用异常") ∧
    (∀ (content ct : String) (d : AnalysisDict),
      d.sentiment_score = none →
      analyze_content content ct (.http 200 (.parsed d)) = d) ∧
    (∀ content reason : String,
      (default_result content reason).is_valid = some (.pbool true) ∧
      (default_result content reason).sentiment_score = some (.pnum 5)) := by
  refine ⟨fun _ _ => rfl, ?_, fun _ _ => rfl, ?_, ?_, ?_, fun _ _ => ⟨rfl, rfl⟩⟩
  · intro content ct status body hstatus
    simp [analyze_content, hstatus]
  · intro content ct d v q hscore hfloat
    refine ⟨?_, le_max_left 0 _, max_le (by norm_num) (min_le_left 10 q)⟩
    simp [analyze_content, hscore, hfloat]
  · intro content ct d v hscore hfloat
    simp [analyze_content, hscore, hfloat]
  · intro content ct d hscore
    simp [analyze_content, hscore]

/-- Witness for the classifier-fallback claim: a 500 status collapses to
the neutral default, and a parsed score of 20 is clamped. -/
theorem analyze_content_fallback_clamp_witness :
    analyze_content "useful text" "news" (.http 500 .fail) =
      default_result "useful text" "API调用失败" ∧
    analyze_content "useful text" "news"
        (.http 200 (.parsed { sentiment_score := some (.pnum 20) })) =
      { ({ sentiment_score := some (.pnum 20) } : AnalysisDict) with
        sentiment_score := some (.pnum (max 0 (min 10 20))) } :=
  ⟨analyze_content_fallback_clamp.2.1 "useful text" "news" 500 .fail
     (by decide),
   (analyze_content_fallback_clamp.2.2.2.1 "useful text" "news"
     { sentiment_score := some (.pnum 20) } (.pnum 20) 20 rfl rfl).1⟩

end StockScraper

namespace StockScraper

/-! ## Incremental info crawl

`MultiSourceInfoCrawler.crawl_stock_info`
(`src/crawler/multi_source_info_crawler.py`) together with
`IncrementalCrawler.get_default_score_for_stock` / `update_crawl_status`
(`src/utils/incremental_crawler.py`), `save_stock_info_data`
(`src/utils/data_saver.py`) and `calculate_overall_sentiment_score`
(`src/utils/sentiment_calculator.py`).  Dates are modelled in days. -/

/-- A row of `stock_sentiment_scores` (primary key `(code, date)`). -/
structure SentimentRow where
  code : String
  date : Int
  news_score : Option ℚ := none
  announcement_score : Option ℚ := none
  comment_score : Option ℚ := none
  analyst_score : Option ℚ := none
  overall_score : Option ℚ := none
  analysis_summary : String := ""
deriving Repr, DecidableEq

/-- A row of `crawl_status` (primary key `(code, content_type)`). -/
structure CrawlStatusRow where
  code : String
  content_type : String
  last_crawl_time : Int
  total_count : ℕ
  status : String
deriving Repr, DecidableEq

/-- A freshly extracted info item, before classification (payload text
fields other than the ones the pipeline reads are omitted). -/
structure RawItem where
  fingerprint : String
  content : String
deriving Repr, DecidableEq

/-- An item carrying classifier output — both as produced by
`_analyze_content_batch` and as stored in the per-content-type tables
(`stock_news` / `stock_announcements` / `stock_comments`, each with a
UNIQUE fingerprint). -/
structure InfoItem where
  fingerprint : String
  content : String
  sentiment_score : PVal
  is_valid : PVal
deriving Repr, DecidableEq

/-- The tables `crawl_stock_info` can touch. -/
structure InfoDb where
  sentiment_scores : List SentimentRow := []
  crawl_status : List CrawlStatusRow := []
  news : List InfoItem := []
  announcements : List InfoItem := []
  comments : List InfoItem := []
deriving Repr, DecidableEq

/-- `ORDER BY date DESC LIMIT 1` over the filtered rows (ties between
equal dates are broken towards the earlier row; the SQL leaves tie order
unspecified). -/
def latestRow (rows : List SentimentRow) : Option SentimentRow :=
  rows.foldl
    (fun acc r =>
      match acc with
      | none => some r
      | some r0 => if r0.date < r.date then some r else some r0)
    none

/-- `IncrementalCrawler.get_default_score_for_stock`: the latest
`overall_score` for the stock dated within the last 30 days, or `-1.0`
when there is no such row or its score is NULL. -/
def get_default_score_for_stock (rows : List SentimentRow) (now : Int)
    (code : String) : ℚ :=
  match latestRow (rows.filter fun r =>
      r.code = code && decide (now - 30 ≤ r.date)) with
  | some r =>
    match r.overall_score with
    | some q => q
    | none => -1
  | none => -1

/-- `DeduplicationManager.is_content_exists` (fingerprint lookup). -/
def is_content_exists (table : List InfoItem) (fp : String) : Bool :=
  table.any fun item => item.fingerprint = fp

/-- The loop of `MultiSourceInfoCrawler._filter_unique_items`, with its
`seen_fingerprints` set. -/
def filterUniqueAux : List String → List RawItem → List RawItem
  | _, [] => []
  | seen, i :: rest =>
    if i.fingerprint ∈ seen then filterUniqueAux seen rest
    else i :: filterUniqueAux (i.fingerprint :: seen) rest

/-- `MultiSourceInfoCrawler._filter_unique_items`: keep the first
occurrence of each fingerprint within a batch. -/
def filter_unique_items (items : List RawItem) : List RawItem :=
  filterUniqueAux [] items

/-- `MultiSourceInfoCrawler._analyze_content_batch`: classify each item
whose fingerprint is not yet stored, attaching
`analysis["sentiment_score"]` and `analysis["is_valid"]` — a missing key
raises `KeyError`, which escapes to the retry loop (`.error`).  Also
returns how many classifier calls the successful pass made. -/
def analyze_batch (table : List InfoItem)
    (classify : String → String → ApiResponse) (content_type : String) :
    List RawItem → PyResult (List InfoItem × ℕ)
  | [] => .ok ([], 0)
  | i :: rest =>
    if is_content_exists table i.fingerprint then
      analyze_batch table classify content_type rest
    else
      let analysis :=
        analyze_content i.content content_type (classify i.content content_type)
      match analysis.sentiment_score, analysis.is_valid with
      | some sv, some iv =>
        (analyze_batch table classify content_type rest).bind fun r =>
          .ok ({ fingerprint := i.fingerprint, content := i.content,
                 sentiment_score := sv, is_valid := iv } :: r.1, r.2 + 1)
      | _, _ => .error ()

/-- `save_stock_info_data`: `INSERT OR IGNORE` per item against the
UNIQUE fingerprint column. -/
def save_stock_info_data (table : List InfoItem) :
    List InfoItem → List InfoItem
  | [] => table
  | i :: rest =>
    if is_content_exists table i.fingerprint then
      save_stock_info_data table rest
    else save_stock_info_data (table ++ [i]) rest

/-- Python truthiness of a value (`item.get("is_valid", False)`). -/
def pyTruthy : PVal → Bool
  | .pnum q => decide (q ≠ 0)
  | .pbool b => b
  | .pstr s => decide (s ≠ "")
  | .plist xs => decide (xs ≠ [])
  | .pnull => false

/-- Python `sum(...)` over score values: numbers and booleans add,
anything else raises `TypeError`. -/
def sumScores : List PVal → PyResult ℚ
  | [] => .ok 0
  | .pnum q :: rest => (sumScores rest).map (fun s => q + s)
  | .pbool b :: rest =>
    (sumScores rest).map (fun s => (if b then (1 : ℚ) else 0) + s)
  | _ :: rest => .error ()

/-- `MultiSourceInfoCrawler._calculate_average_score`: mean of the
`sentiment_score`s of the truthy-`is_valid` items, `None` when there are
none. -/
def _calculate_average_score (items : List InfoItem) : PyResult (Option ℚ) :=
  let valid := items.filter fun i => pyTruthy i.is_valid
  match valid with
  | [] => .ok none
  | _ =>
    (sumScores (valid.map fun i => i.sentiment_score)).map fun s =>
      some (s / valid.length)

/-- Round half to even. -/
def roundHalfEven (x : ℚ) : Int :=
  if x - ⌊x⌋ < mkRat 1 2 then ⌊x⌋
  else if mkRat 1 2 < x - ⌊x⌋ then ⌊x⌋ + 1
  else if ⌊x⌋ % 2 = 0 then ⌊x⌋ else ⌊x⌋ + 1

/-- Python `round(x, 2)` (on exact rationals; the binary-float rounding
artifacts of CPython are not modelled). -/
def pyRound2 (x : ℚ) : ℚ := (roundHalfEven (x * 100) : ℚ) / 100

/-- The `scores`/`weights` accumulation of
`calculate_overall_sentiment_score`: weight 0.3 for news, 0.25 for
announcements, 0.2 for comments, 0.25 for reports, keeping only the
scores actually present. -/
def weightPairs (news announcement comment report : Option ℚ) :
    List (ℚ × ℚ) :=
  (match news with | some s => [(s, mkRat 3 10)] | none => []) ++
  (match announcement with | some s => [(s, mkRat 1 4)] | none => []) ++
  (match comment with | some s => [(s, mkRat 1 5)] | none => []) ++
  (match report with | some s => [(s, mkRat 1 4)] | none => [])

/-- `calculate_overall_sentiment_score`
(`src/utils/sentiment_calculator.py`): the weighted average of the
present scores under normalized weights, `5.0` when none is present,
rounded to 2 decimals. -/
def calculate_overall_sentiment_score
    (news announcement comment report : Option ℚ) : ℚ :=
  if weightPairs news announcement comment report = [] then 5
  else
    pyRound2
      (((weightPairs news announcement comment report).map fun p =>
          p.1 * (p.2 /
            (((weightPairs news announcement comment report).map fun p =>
              p.2).sum))).sum)

/-- `IncrementalCrawler.update_crawl_status`: `INSERT OR REPLACE` on the
`(code, content_type)` key, accumulating `total_count` via the
`COALESCE` subquery. -/
def update_crawl_status (rows : List CrawlStatusRow) (now : Int)
    (code content_type : String) (success_count : ℕ) :
    List CrawlStatusRow :=
  let old_total :=
    match rows.find? fun r =>
        r.code = code && r.content_type = content_type with
    | some r => r.total_count
    | none => 0
  (rows.filter fun r => !(r.code = code && r.content_type = content_type)) ++
    [{ code := code, content_type := content_type, last_crawl_time := now,
       total_count := old_total + success_count, status := "active" }]

/-- `INSERT OR REPLACE INTO stock_sentiment_scores` on the
`(code, date)` key. -/
def insert_or_replace_score (rows : List SentimentRow) (r : SentimentRow) :
    List SentimentRow :=
  (rows.filter fun r0 => !(r0.code = r.code && r0.date = r.date)) ++ [r]

/-- The external world of one `crawl_stock_info` call: what each of the
six extractors returns (`none` = the extractor raised and its
`try/except` skipped it), the classifier responses, and whether the
final score `INSERT` raises. -/
structure CrawlEnv where
  sina_news : Option (List RawItem) := none
  xueqiu_news : Option (List RawItem) := none
  tonghuashun_news : Option (List RawItem) := none
  eastmoney_announcements : Option (List RawItem) := none
  tonghuashun_announcements : Option (List RawItem) := none
  xueqiu_comments : Option (List RawItem) := none
  classify : String → String → ApiResponse := fun _ _ => .exn
  save_score_fails : Bool := false

/-- Observable side effects of a `crawl_stock_info` call. -/
structure Effects where
  extractor_calls : ℕ := 0
  classifier_calls : ℕ := 0
  db_writes : ℕ := 0
deriving Repr, DecidableEq

/-- Pointwise sum of effect counters. -/
def Effects.add (a b : Effects) : Effects :=
  { extractor_calls := a.extractor_calls + b.extractor_calls,
    classifier_calls := a.classifier_calls + b.classifier_calls,
    db_writes := a.db_writes + b.db_writes }

/-- Items of an extractor outcome (`None` contributes nothing). -/
def optItems (o : Option (List RawItem)) : List RawItem := o.getD []

/-- One iteration of the `while retry_count < max_retries` body of
`crawl_stock_info`: extract from all six sources, dedupe, classify new
items, save them, average, combine, `INSERT OR REPLACE` the score row,
and update `crawl_status` for the three content types.  `.error` carries
the partial state at the point the exception reached the handler (all
saves happen after the three classify passes, in source order). -/
def crawl_attempt (env : CrawlEnv) (db : InfoDb) (now : Int)
    (code : String) :
    Except (InfoDb × Effects) (Option ℚ × InfoDb × Effects) :=
  let eff0 : Effects := { extractor_calls := 6 }
  let unique_news := filter_unique_items
    (optItems env.sina_news ++ optItems env.xueqiu_news ++
     optItems env.tonghuashun_news)
  let unique_ann := filter_unique_items
    (optItems env.eastmoney_announcements ++
     optItems env.tonghuashun_announcements)
  let unique_comments := filter_unique_items (optItems env.xueqiu_comments)
  match analyze_batch db.news env.classify "news" unique_news with
  | .error _ => .error (db, eff0)
  | .ok (analyzed_news, n1) =>
  match analyze_batch db.announcements env.classify "announcement"
      unique_ann with
  | .error _ => .error (db, { eff0 with classifier_calls := n1 })
  | .ok (analyzed_ann, n2) =>
  match analyze_batch db.comments env.classify "comment" unique_comments with
  | .error _ => .error (db, { eff0 with classifier_calls := n1 + n2 })
  | .ok (analyzed_comments, n3) =>
  let eff1 : Effects :=
    { extractor_calls := 6, classifier_calls := n1 + n2 + n3,
      db_writes :=
        (if analyzed_news = [] then 0 else 1) +
        (if analyzed_ann = [] then 0 else 1) +
        (if analyzed_comments = [] then 0 else 1) }
  let db1 : InfoDb :=
    { db with
      news := if analyzed_news = [] then db.news
              else save_stock_info_data db.news analyzed_news,
      announcements := if analyzed_ann = [] then db.announcements
              else save_stock_info_data db.announcements analyzed_ann,
      comments := if analyzed_comments = [] then db.comments
              else save_stock_info_data db.comments analyzed_comments }
  match _calculate_average_score analyzed_news with
  | .error _ => .error (db1, eff1)
  | .ok news_score =>
  match _calculate_average_score analyzed_ann with
  | .error _ => .error (db1, eff1)
  | .ok announcement_score =>
  match _calculate_average_score analyzed_comments with
  | .error _ => .error (db1, eff1)
  | .ok comment_score =>
  let overall := calculate_overall_sentiment_score news_score
    announcement_score comment_score none
  if env.save_score_fails then
    .ok (none, db1, eff1)
  else
    let row : SentimentRow :=
      { code := code, date := now, news_score := news_score,
        announcement_score := announcement_score,
        comment_score := comment_score, analyst_score := none,
        overall_score := some overall, analysis_summary := "多源爬取" }
    let db2 : InfoDb :=
      { db1 with
        sentiment_scores := insert_or_replace_score db1.sentiment_scores row }
    let db3 : InfoDb :=
      { db2 with
        crawl_status :=
          update_crawl_status
            (update_crawl_status
              (update_crawl_status db2.crawl_status now code "news"
                analyzed_news.length)
              now code "announcement" analyzed_ann.length)
            now code "comment" analyzed_comments.length }
    .ok (some overall, db3, { eff1 with db_writes := eff1.db_writes + 4 })

/-- The retry loop (`max_retries = 3`): a caught exception retries with
the partial state; exhausting the retries returns `None`. -/
def crawl_loop (env : CrawlEnv) (now : Int) (code : String) :
    ℕ → InfoDb → Effects → Option ℚ × InfoDb × Effects
  | 0, db, eff => (none, db, eff)
  | n + 1, db, eff =>
    match crawl_attempt env db now code with
    | .ok (score, db2, eff2) => (score, db2, eff.add eff2)
    | .error (db2, eff2) => crawl_loop env now code n db2 (eff.add eff2)

/-- `MultiSourceInfoCrawler.crawl_stock_info`: the incremental check
first — a recent (30-day) non-`-1` score short-circuits the whole
pipeline — otherwise up to three attempts of the crawl body. -/
def crawl_stock_info (env : CrawlEnv) (db : InfoDb) (now : Int)
    (code : String) : Option ℚ × InfoDb × Effects :=
  let existing := get_default_score_for_stock db.sentiment_scores now code
  if existing ≠ -1 then (some existing, db, {})
  else crawl_loop env now code 3 db {}

end StockScraper

namespace StockScraper

/-- An item whose classifier score is a number in `[0, 10]`. -/
def GoodItem (i : InfoItem) : Prop :=
  ∃ q, i.sentiment_score = .pnum q ∧ 0 ≤ q ∧ q ≤ 10

/-- Whenever a returned analysis dict has a `sentiment_score`, it is a
number in `[0, 10]` (clamped, or the neutral 5.0). -/
theorem analyze_content_score_range (content ct : String)
    (resp : ApiResponse) (v : PVal) :
    (analyze_content content ct resp).sentiment_score = some v →
    ∃ q, v = .pnum q ∧ 0 ≤ q ∧ q ≤ 10 := by
  intro h
  match resp with
  | .exn =>
    simp [analyze_content, default_result] at h
    exact ⟨5, h.symm, by norm_num, by norm_num⟩
  | .http status body =>
    by_cases hst : status = 200
    · subst hst
      simp only [analyze_content, if_pos rfl] at h
      match body with
      | .fail =>
        simp [default_result] at h
        exact ⟨5, h.symm, by norm_num, by norm_num⟩
      | .parsed d =>
        cases hd : d.sentiment_score with
        | none =>
          simp only [hd, if_true] at h
          cases h
        | some v0 =>
          simp only [hd, if_true] at h
          cases hf : pyFloat v0 with
          | ok q =>
            simp only [hf] at h
            simp at h
            exact ⟨max 0 (min 10 q), h.symm, le_max_left 0 _,
                   max_le (by norm_num) (min_le_left 10 q)⟩
          | error e =>
            simp only [hf] at h
            simp [default_result] at h
            exact ⟨5, h.symm, by norm_num, by norm_num⟩
    · simp only [analyze_content, if_neg hst] at h
      simp [default_result] at h
      exact ⟨5, h.symm, by norm_num, by norm_num⟩

/-- Every item `_analyze_content_batch` produces is good. -/
theorem analyze_batch_good (table : List InfoItem)
    (classify : String → String → ApiResponse) (ct : String) :
    ∀ (items : List RawItem) (r : List InfoItem × ℕ),
      analyze_batch table classify ct items = .ok r → ∀ i ∈ r.1, GoodItem i := by
  intro items
  induction items with
  | nil =>
    intro r h i hi
    simp only [analyze_batch] at h
    cases h
    cases hi
  | cons x rest ih =>
    intro r h i hi
    simp only [analyze_batch] at h
    cases hex : is_content_exists table x.fingerprint with
    | true =>
      rw [hex] at h
      simp only [if_true] at h
      exact ih r h i hi
    | false =>
      rw [hex] at h
      simp only [Bool.false_eq_true, if_false] at h
      cases hs : (analyze_content x.content ct
          (classify x.content ct)).sentiment_score with
      | none => rw [hs] at h; cases h
      | some sv =>
        rw [hs] at h
        cases hv : (analyze_content x.content ct
            (classify x.content ct)).is_valid with
        | none => rw [hv] at h; cases h
        | some iv =>
          rw [hv] at h
          cases hrest : analyze_batch table classify ct rest with
          | error e => rw [hrest] at h; cases h
          | ok r0 =>
            rw [hrest] at h
            simp only [Except.bind] at h
            cases h
            cases hi with
            | head =>
              obtain ⟨q, hq, h0, h10⟩ :=
                analyze_content_score_range x.content ct
                  (classify x.content ct) sv hs
              exact ⟨q, by simpa using hq, h0, h10⟩
            | tail _ hmem => exact ih r0 hrest i hmem

end StockScraper

namespace StockScraper

theorem sumScores_bounds (l : List PVal) :
    ∀ s : ℚ, (∀ v ∈ l, ∃ q, v = .pnum q ∧ 0 ≤ q ∧ q ≤ 10) →
      sumScores l = .ok s → 0 ≤ s ∧ s ≤ 10 * l.length := by
  induction l with
  | nil =>
    intro s _ h
    cases h
    simp
  | cons v rest ih =>
    intro s hgood h
    obtain ⟨q, hv, h0, h10⟩ := hgood v (List.mem_cons_self _ _)
    subst hv
    simp only [sumScores, Except.map] at h
    cases hr : sumScores rest with
    | error e => rw [hr] at h; cases h
    | ok s0 =>
      rw [hr] at h
      cases h
      obtain ⟨ih0, ih10⟩ := ih s0 (fun w hw => hgood w (List.mem_cons_of_mem _ hw)) hr
      constructor
      · linarith
      · simp only [List.length_cons]
        push_cast
        linarith

theorem average_score_range (items : List InfoItem)
    (hgood : ∀ i ∈ items, GoodItem i) (r : Option ℚ)
    (h : _calculate_average_score items = .ok r) :
    r = none ∨ ∃ a, r = some a ∧ 0 ≤ a ∧ a ≤ 10 := by
  unfold _calculate_average_score at h
  cases hv : items.filter fun i => pyTruthy i.is_valid with
  | nil =>
    rw [hv] at h
    cases h
    exact Or.inl rfl
  | cons i0 rest =>
    rw [hv] at h
    simp only [Except.map] at h
    cases hs : sumScores ((i0 :: rest).map fun i => i.sentiment_score) with
    | error e => rw [hs] at h; cases h
    | ok s =>
      rw [hs] at h
      cases h
      have hgoodmap : ∀ v ∈ (i0 :: rest).map fun i => i.sentiment_score,
          ∃ q, v = .pnum q ∧ 0 ≤ q ∧ q ≤ 10 := by
        intro v hvm
        obtain ⟨i, hi, hvi⟩ := List.mem_map.mp hvm
        have hifilter : i ∈ items.filter fun i => pyTruthy i.is_valid :=
          hv ▸ hi
        have himem : i ∈ items := List.mem_of_mem_filter hifilter
        obtain ⟨q, hq, h0, h10⟩ := hgood i himem
        exact ⟨q, hvi ▸ hq, h0, h10⟩
      obtain ⟨h0, h10⟩ := sumScores_bounds _ s hgoodmap hs
      have hlen : 0 < (((i0 :: rest).length : ℕ) : ℚ) := by
        exact_mod_cast Nat.succ_pos rest.length
      refine Or.inr ⟨s / (i0 :: rest).length, rfl, ?_, ?_⟩
      · exact div_nonneg h0 (le_of_lt hlen)
      · rw [div_le_iff hlen]
        rw [List.length_map] at h10
        linarith

end StockScraper

namespace StockScraper

theorem roundHalfEven_bounds (x : ℚ) (h0 : 0 ≤ x) (h1 : x ≤ 1000) :
    0 ≤ roundHalfEven x ∧ roundHalfEven x ≤ 1000 := by
  have hhalf : mkRat 1 2 = (1 : ℚ) / 2 := by
    rw [Rat.mkRat_eq_div]; norm_num
  have hf0 : 0 ≤ ⌊x⌋ := Int.floor_nonneg.mpr h0
  have hf1 : ⌊x⌋ ≤ 1000 := by
    have := Int.floor_le_floor h1
    simpa using this
  have hfl : (⌊x⌋ : ℚ) ≤ x := Int.floor_le x
  have hflt : (1 : ℚ) / 2 ≤ x - ⌊x⌋ → ⌊x⌋ < 1000 := by
    intro hge
    by_contra hc
    push_neg at hc
    have hx1000 : (1000 : ℚ) ≤ (⌊x⌋ : ℚ) := by exact_mod_cast hc
    linarith
  unfold roundHalfEven
  rw [hhalf]
  by_cases hA : x - (⌊x⌋ : ℚ) < 1 / 2
  · rw [if_pos hA]
    exact ⟨hf0, hf1⟩
  · rw [if_neg hA]
    rw [not_lt] at hA
    have hlt1000 := hflt hA
    by_cases hB : (1 : ℚ) / 2 < x - ⌊x⌋
    · rw [if_pos hB]
      exact ⟨by omega, by omega⟩
    · rw [if_neg hB]
      by_cases hC : ⌊x⌋ % 2 = 0
      · rw [if_pos hC]
        exact ⟨hf0, hf1⟩
      · rw [if_neg hC]
        exact ⟨by omega, by omega⟩

theorem pyRound2_range (x : ℚ) (h0 : 0 ≤ x) (h1 : x ≤ 10) :
    0 ≤ pyRound2 x ∧ pyRound2 x ≤ 10 := by
  obtain ⟨ha, hb⟩ := roundHalfEven_bounds (x * 100) (by linarith) (by linarith)
  unfold pyRound2
  constructor
  · apply div_nonneg _ (by norm_num)
    exact_mod_cast ha
  · rw [div_le_iff (by norm_num : (0:ℚ) < 100)]
    have : ((roundHalfEven (x * 100) : ℤ) : ℚ) ≤ 1000 := by exact_mod_cast hb
    linarith

theorem weighted_pairs_sum_range (pairs : List (ℚ × ℚ)) (T : ℚ)
    (hT : T = (pairs.map fun p => p.2).sum) (hne : pairs ≠ [])
    (hgood : ∀ p ∈ pairs, (0 ≤ p.1 ∧ p.1 ≤ 10) ∧ 0 < p.2) :
    0 ≤ (pairs.map fun p => p.1 * (p.2 / T)).sum ∧
      (pairs.map fun p => p.1 * (p.2 / T)).sum ≤ 10 := by
  have hTpos : 0 < T := by
    rw [hT]
    apply List.sum_pos
    · intro w hw
      obtain ⟨p, hp, hpw⟩ := List.mem_map.mp hw
      exact hpw ▸ (hgood p hp).2
    · simpa using hne
  constructor
  · apply List.sum_nonneg
    intro t ht
    obtain ⟨p, hp, hpt⟩ := List.mem_map.mp ht
    obtain ⟨⟨hp0, _⟩, hpw⟩ := hgood p hp
    have : 0 ≤ p.1 * (p.2 / T) :=
      mul_nonneg hp0 (div_nonneg (le_of_lt hpw) (le_of_lt hTpos))
    exact hpt ▸ this
  · have hle : (pairs.map fun p => p.1 * (p.2 / T)).sum ≤
        (pairs.map fun p => 10 * (p.2 / T)).sum := by
      apply List.sum_le_sum
      intro p hp
      obtain ⟨⟨hp0, hp10⟩, hpw⟩ := hgood p hp
      have hw : 0 ≤ p.2 / T := div_nonneg (le_of_lt hpw) (le_of_lt hTpos)
      exact mul_le_mul_of_nonneg_right hp10 hw
    have heq : (pairs.map fun p => 10 * (p.2 / T)).sum =
        10 / T * (pairs.map fun p => p.2).sum := by
      rw [← List.sum_map_mul_left]
      congr 1
      apply List.map_congr_left
      intro p _
      ring
    rw [heq, ← hT] at hle
    have : 10 / T * T = 10 := by
      field_simp
    linarith [hle, this.symm ▸ hle]

end StockScraper

namespace StockScraper

theorem mem_weight_component {o : Option ℚ} {w : ℚ} {p : ℚ × ℚ}
    (hp : p ∈ (match o with | some s => [(s, w)] | none => ([] : List (ℚ × ℚ)))) :
    ∃ s, o = some s ∧ p = (s, w) := by
  cases o with
  | none => cases hp
  | some s =>
    simp only [List.mem_singleton] at hp
    exact ⟨s, rfl, hp⟩

theorem calculate_overall_range (n a c r : Option ℚ)
    (hn : ∀ q, n = some q → 0 ≤ q ∧ q ≤ 10)
    (ha : ∀ q, a = some q → 0 ≤ q ∧ q ≤ 10)
    (hc : ∀ q, c = some q → 0 ≤ q ∧ q ≤ 10)
    (hr : ∀ q, r = some q → 0 ≤ q ∧ q ≤ 10) :
    0 ≤ calculate_overall_sentiment_score n a c r ∧
      calculate_overall_sentiment_score n a c r ≤ 10 := by
  have hgood : ∀ p ∈ weightPairs n a c r, (0 ≤ p.1 ∧ p.1 ≤ 10) ∧ 0 < p.2 := by
    intro p hp
    unfold weightPairs at hp
    rcases List.mem_append.mp hp with h123 | h4
    · rcases List.mem_append.mp h123 with h12 | h3
      · rcases List.mem_append.mp h12 with h1 | h2
        · obtain ⟨s, hs, hps⟩ := mem_weight_component h1
          subst hps
          exact ⟨hn s hs, show (0:ℚ) < mkRat 3 10 by decide⟩
        · obtain ⟨s, hs, hps⟩ := mem_weight_component h2
          subst hps
          exact ⟨ha s hs, show (0:ℚ) < mkRat 1 4 by decide⟩
      · obtain ⟨s, hs, hps⟩ := mem_weight_component h3
        subst hps
        exact ⟨hc s hs, show (0:ℚ) < mkRat 1 5 by decide⟩
    · obtain ⟨s, hs, hps⟩ := mem_weight_component h4
      subst hps
      exact ⟨hr s hs, show (0:ℚ) < mkRat 1 4 by decide⟩
  unfold calculate_overall_sentiment_score
  by_cases hne : weightPairs n a c r = []
  · rw [if_pos hne]
    norm_num
  · rw [if_neg hne]
    obtain ⟨hlo, hhi⟩ :=
      weighted_pairs_sum_range (weightPairs n a c r) _ rfl hne hgood
    exact pyRound2_range _ hlo hhi

end StockScraper

namespace StockScraper

theorem crawl_attempt_rows_err (env : CrawlEnv) (db : InfoDb) (now : Int)
    (code : String) (db2 : InfoDb) (eff2 : Effects)
    (h : crawl_attempt env db now code = .error (db2, eff2)) :
    db2.sentiment_scores = db.sentiment_scores := by
  simp only [crawl_attempt] at h
  repeat' split at h
  all_goals first
    | (cases h; rfl)
    | cases h

end StockScraper

namespace StockScraper

theorem crawl_attempt_rows_ok (env : CrawlEnv) (db : InfoDb) (now : Int)
    (code : String) (score : Option ℚ) (db2 : InfoDb) (eff2 : Effects)
    (h : crawl_attempt env db now code = .ok (score, db2, eff2)) :
    ∀ r ∈ db2.sentiment_scores,
      r ∈ db.sentiment_scores ∨
      ∃ q, r.overall_score = some q ∧ 0 ≤ q ∧ q ≤ 10 := by
  simp only [crawl_attempt] at h
  cases hn : analyze_batch db.news env.classify "news"
      (filter_unique_items (optItems env.sina_news ++
        optItems env.xueqiu_news ++ optItems env.tonghuashun_news)) with
  | error e => rw [hn] at h; cases h
  | ok pn =>
  simp only [hn] at h
  cases hb : analyze_batch db.announcements env.classify "announcement"
      (filter_unique_items (optItems env.eastmoney_announcements ++
        optItems env.tonghuashun_announcements)) with
  | error e => rw [hb] at h; cases h
  | ok pa =>
  simp only [hb] at h
  cases hc : analyze_batch db.comments env.classify "comment"
      (filter_unique_items (optItems env.xueqiu_comments)) with
  | error e => rw [hc] at h; cases h
  | ok pc =>
  simp only [hc] at h
  cases hna : _calculate_average_score pn.1 with
  | error e => rw [hna] at h; cases h
  | ok ns =>
  simp only [hna] at h
  cases hab : _calculate_average_score pa.1 with
  | error e => rw [hab] at h; cases h
  | ok as_ =>
  simp only [hab] at h
  cases hcb : _calculate_average_score pc.1 with
  | error e => rw [hcb] at h; cases h
  | ok cs =>
  simp only [hcb] at h
  cases hsf : env.save_score_fails with
  | true =>
    simp only [hsf, if_true] at h
    cases h
    intro r hr
    exact Or.inl hr
  | false =>
    simp only [hsf, Bool.false_eq_true, if_false] at h
    cases h
    intro r hr
    simp only [insert_or_replace_score] at hr
    rcases List.mem_append.mp hr with hmem | hrow
    · exact Or.inl (List.mem_of_mem_filter hmem)
    · have hrange : 0 ≤ calculate_overall_sentiment_score ns as_ cs none ∧
          calculate_overall_sentiment_score ns as_ cs none ≤ 10 := by
        have goodn := analyze_batch_good db.news env.classify "news" _ pn hn
        have gooda :=
          analyze_batch_good db.announcements env.classify "announcement" _ pa hb
        have goodc :=
          analyze_batch_good db.comments env.classify "comment" _ pc hc
        have rn := average_score_range pn.1 goodn ns hna
        have ra := average_score_range pa.1 gooda as_ hab
        have rc := average_score_range pc.1 goodc cs hcb
        apply calculate_overall_range
        · intro q hq
          rcases rn with h0 | ⟨a, ha', hb'⟩
          · rw [h0] at hq; cases hq
          · rw [ha'] at hq; cases hq; exact hb'
        · intro q hq
          rcases ra with h0 | ⟨a, ha', hb'⟩
          · rw [h0] at hq; cases hq
          · rw [ha'] at hq; cases hq; exact hb'
        · intro q hq
          rcases rc with h0 | ⟨a, ha', hb'⟩
          · rw [h0] at hq; cases hq
          · rw [ha'] at hq; cases hq; exact hb'
        · intro q hq; cases hq
      rcases List.mem_singleton.mp hrow with rfl
      exact Or.inr ⟨calculate_overall_sentiment_score ns as_ cs none, rfl,
        hrange.1, hrange.2⟩

end StockScraper

namespace StockScraper

theorem crawl_loop_rows (env : CrawlEnv) (now : Int) (code : String) :
    ∀ (fuel : ℕ) (db : InfoDb) (eff : Effects),
      ∀ r ∈ (crawl_loop env now code fuel db eff).2.1.sentiment_scores,
        r ∈ db.sentiment_scores ∨
        ∃ q, r.overall_score = some q ∧ 0 ≤ q ∧ q ≤ 10 := by
  intro fuel
  induction fuel with
  | zero => intro db eff r hr; exact Or.inl hr
  | succ n ih =>
    intro db eff r hr
    simp only [crawl_loop] at hr
    cases hatt : crawl_attempt env db now code with
    | ok res =>
      rw [hatt] at hr
      obtain ⟨s, db2, eff2⟩ := res
      exact crawl_attempt_rows_ok env db now code s db2 eff2 hatt r hr
    | error res =>
      rw [hatt] at hr
      obtain ⟨db2, eff2⟩ := res
      have := ih db2 (eff.add eff2) r hr
      rcases this with hmem | hbound
      · rw [crawl_attempt_rows_err env db now code db2 eff2 hatt] at hmem
        exact Or.inl hmem
      · exact Or.inr hbound

/-- Claim C10: when the stock already has a recent (30-day) non-`-1`
`overall_score` row, `crawl_stock_info` returns that score immediately
and is a complete no-op — no extractor runs, no classifier call is made,
no table is written, and the database state is returned unchanged.
Moreover every `stock_sentiment_scores` row the crawl path itself writes
carries an `overall_score` in `[0, 10]` (so the system never stores the
`-1.0` sentinel and the cache test fires exactly on previously scored
stocks).  The specification does not mention this 30-day score cache. -/
theorem crawl_stock_info_recent_score_cache :
    (∀ (env : CrawlEnv) (db : InfoDb) (now : Int) (code : String) (s : ℚ),
      get_default_score_for_stock db.sentiment_scores now code = s →
      s ≠ -1 →
      crawl_stock_info env db now code = (some s, db, {})) ∧
    (∀ (env : CrawlEnv) (db : InfoDb) (now : Int) (code : String),
      ∀ r ∈ (crawl_stock_info env db now code).2.1.sentiment_scores,
        r ∈ db.sentiment_scores ∨
        ∃ q, r.overall_score = some q ∧ 0 ≤ q ∧ q ≤ 10) := by
  constructor
  · intro env db now code s hs hne
    unfold crawl_stock_info
    rw [hs, if_pos hne]
  · intro env db now code r hr
    simp only [crawl_stock_info] at hr
    by_cases hne : get_default_score_for_stock db.sentiment_scores now code ≠ -1
    · rw [if_pos hne] at hr
      exact Or.inl hr
    · rw [if_neg hne] at hr
      exact crawl_loop_rows env now code 3 db {} r hr

/-- A database already holding a fresh sentiment score for stock 000001. -/
def cachedScoreDb : InfoDb :=
  { sentiment_scores :=
      [{ code := "000001", date := 100, overall_score := some 8,
         analysis_summary := "多源爬取" }] }

/-- Witness for the score-cache claim: with a day-100 score of 8 on
record and `now = 110`, the crawl returns 8 and leaves the state
untouched with zero effects. -/
theorem crawl_stock_info_recent_score_cache_witness :
    crawl_stock_info {} cachedScoreDb 110 "000001" =
      (some 8, cachedScoreDb, {}) :=
  crawl_stock_info_recent_score_cache.1 {} cachedScoreDb 110 "000001" 8
    (by decide) (by decide)

end StockScraper
